import Mathlib

/-!
Verification development for the repo2pipe stack analyzer and pipeline
synthesizer (`src/core/services/analyzer/core.py` and
`src/core/services/builders/pipeline.py`).

The Python code is shallowly embedded: every embedded definition mirrors one
function of the source, working over pure values.  A repository tree is
modelled as the list of its files in the order the filesystem enumeration
(`os.walk` / `Path.rglob`) yields them; each file is its relative path
components plus its text content.  Python dicts are modelled as insertion
ordered association lists, Python sets as lists that are deduplicated and
sorted on exposure, exactly where the source sorts them.  `click.echo`
progress output and the `logs` accumulator are I/O reporting and are not
modelled; the returned `Pipeline` / `StackInfo` values and the `warnings`
accumulator are modelled in full.

String operations are re-implemented structurally on `List Char` (code-point
lists) so that every definition evaluates by kernel reduction; Python string
semantics (lexicographic code-point comparison for `sorted`, ASCII lowering
for the identifiers involved) are matched on the inputs the analyzer
compares, which are ASCII names and markers.
-/

/-- Lexicographic code-point comparison on char lists: the order Python
`sorted` uses for strings. -/
def lexLe : List Char → List Char → Bool
  | [], _ => true
  | _ :: _, [] => false
  | a :: as, b :: bs =>
    if a.toNat < b.toNat then true
    else if b.toNat < a.toNat then false
    else lexLe as bs

/-- `a <= b` in Python string order. -/
def pyLe (a b : String) : Prop := lexLe a.data b.data = true

instance : DecidableRel pyLe := fun a b =>
  inferInstanceAs (Decidable (lexLe a.data b.data = true))

/-- Totality of the lexicographic comparison. -/
def lexLe_total : ∀ as bs : List Char, lexLe as bs = true ∨ lexLe bs as = true := by
  intro as
  induction as with
  | nil => intro bs; left; rfl
  | cons x xs ih =>
    intro bs
    cases bs with
    | nil => right; rfl
    | cons y ys =>
      rcases Nat.lt_trichotomy x.toNat y.toNat with h | h | h
      · left; simp [lexLe, h]
      · rcases ih ys with h2 | h2
        · left; simp [lexLe, h, h2]
        · right; simp [lexLe, h, h2]
      · right; simp [lexLe, h]

/-- Transitivity of the lexicographic comparison. -/
def lexLe_trans :
    ∀ as bs cs : List Char, lexLe as bs = true → lexLe bs cs = true → lexLe as cs = true := by
  intro as
  induction as with
  | nil => intro bs cs _ _; rfl
  | cons x xs ih =>
    intro bs cs hab hbc
    cases bs with
    | nil => simp [lexLe] at hab
    | cons y ys =>
      cases cs with
      | nil => simp [lexLe] at hbc
      | cons z zs =>
        simp only [lexLe] at hab hbc ⊢
        rcases Nat.lt_trichotomy x.toNat y.toNat with hxy | hxy | hxy
        · rcases Nat.lt_trichotomy y.toNat z.toNat with hyz | hyz | hyz
          · simp [Nat.lt_trans hxy hyz]
          · simp [hyz ▸ hxy]
          · simp [hxy, Nat.lt_asymm hxy, Nat.lt_asymm hyz, hyz] at hbc
        · rcases Nat.lt_trichotomy y.toNat z.toNat with hyz | hyz | hyz
          · simp [hxy ▸ hyz]
          · have hxz : x.toNat = z.toNat := hxy.trans hyz
            simp [hxy, Nat.lt_irrefl, hxz, hyz] at hab hbc ⊢
            exact ih ys zs hab hbc
          · simp [hyz, Nat.lt_asymm hyz] at hbc
        · simp [hxy, Nat.lt_asymm hxy] at hab

instance : IsTotal String pyLe := ⟨fun a b => lexLe_total a.data b.data⟩

instance : IsTrans String pyLe :=
  ⟨fun a b c hab hbc => lexLe_trans a.data b.data c.data hab hbc⟩

/-- Python `sorted` on a list of strings. -/
def pySortStr (l : List String) : List String := List.insertionSort pyLe l

/-- Whitespace for Python `str.strip()` / `str.split()` (ASCII subset). -/
def isWsCh (c : Char) : Bool :=
  c == ' ' || c == '\t' || c == '\n' || c == '\x0d' || c == '\x0b' || c == '\x0c'

/-- Python `str.strip()`. -/
def pyStrip (s : String) : String :=
  ⟨((s.data.dropWhile isWsCh).reverse.dropWhile isWsCh).reverse⟩

/-- Python `str.lower()` (ASCII letters; the analyzer only lowers ASCII
file names and manifest markers). -/
def pyLower (s : String) : String := ⟨s.data.map Char.toLower⟩

/-- Python `a.startswith(b)`. -/
def pyStarts (s pre : String) : Bool := pre.data.isPrefixOf s.data

/-- Python `a.endswith(b)`. -/
def pyEnds (s suf : String) : Bool := suf.data.reverse.isPrefixOf s.data.reverse

/-- Substring containment, Python `needle in hay`. -/
def chContainsSub (needle hay : List Char) : Bool :=
  match hay with
  | [] => needle.isEmpty
  | _ :: t => needle.isPrefixOf hay || chContainsSub needle t

/-- Python `needle in hay` on strings. -/
def pyInStr (needle hay : String) : Bool := chContainsSub needle.data hay.data

/-- Python `s.replace(c, d)` for one-char needles (the only use in the
source is `name.replace('-', '_').replace('.', '_')`). -/
def pyReplaceCh (s : String) (c d : Char) : String :=
  ⟨s.data.map (fun x => if x == c then d else x)⟩

/-- Python `s.split()` (split on whitespace runs, no empty fields). -/
def pySplitWsCh : List Char → List (List Char)
  | [] => []
  | c :: t =>
    if isWsCh c then pySplitWsCh t
    else
      match pySplitWsCh t with
      | [] => [[c]]
      | w :: ws => if isWsCh (t.headD ' ') then [c] :: w :: ws else (c :: w) :: ws

/-- Python `s.split()` on strings. -/
def pySplitWs (s : String) : List String := (pySplitWsCh s.data).map (fun w => ⟨w⟩)

/-- Python `str.splitlines()` restricted to `\n` / `\r\n` terminators. -/
def pySplitLinesCh : List Char → List Char → List String
  | acc, [] => if acc.isEmpty then [] else [⟨acc.reverse⟩]
  | acc, '\n' :: t => ⟨(match acc with | '\x0d' :: r => r.reverse | _ => acc.reverse)⟩ :: pySplitLinesCh [] t
  | acc, c :: t => pySplitLinesCh (c :: acc) t

/-- Python `content.splitlines()`. -/
def pySplitLines (s : String) : List String := pySplitLinesCh [] s.data

/-- `"/".join(parts)`: the string form of a relative `Path`. -/
def joinPath : List String → String
  | [] => ""
  | [p] => p
  | p :: rest => p ++ "/" ++ joinPath rest

/-- Drop the first `n` chars of a string (Python `s[n:]`). -/
def pyDropStr (s : String) (n : Nat) : String := ⟨s.data.drop n⟩

/-- Python dict lookup on an insertion-ordered association list. -/
def alookup {α : Type} : List (String × α) → String → Option α
  | [], _ => none
  | (a, b) :: r, k => if a == k then some b else alookup r k

/-- Python `k in dict`. -/
def akey {α : Type} (m : List (String × α)) (k : String) : Bool := (alookup m k).isSome

/-- Python `dict[k] = v`: overwrite in place if present, else append. -/
def aset {α : Type} (m : List (String × α)) (k : String) (v : α) : List (String × α) :=
  if akey m k then m.map (fun p => if p.1 == k then (p.1, v) else p) else m ++ [(k, v)]

/-- Python `if k not in dict: dict[k] = v`. -/
def ainsertNew {α : Type} (m : List (String × α)) (k : String) (v : α) : List (String × α) :=
  if akey m k then m else m ++ [(k, v)]

/-- Lookup of the last occurrence of a key (assignment semantics over a
possibly repeating entry list). -/
def alookupLast {α : Type} (m : List (String × α)) (k : String) : Option α :=
  alookup m.reverse k

/-- Python set accumulation: `s.add(x)` keeping first-seen order. -/
def addSet (m : List String) (x : String) : List String :=
  if x ∈ m then m else m ++ [x]

/-- `list(dict.fromkeys(l))`: deduplicate keeping the first occurrence. -/
def pyDedup (l : List String) : List String :=
  l.foldl (fun acc x => if x ∈ acc then acc else acc ++ [x]) []

/-! ## Data model (`src/core/models.py`, `src/model.py`) -/

/-- `DockerfileInfo` (core/models.py): one discovered Dockerfile. -/
structure DockerfileInfo where
  path : String
  context : String
  name : String
  kind : Option String := none
deriving Repr, DecidableEq

/-- `StackInfo` (core/models.py): the stack description the analyzer
produces.  Dicts are insertion-ordered association lists. -/
structure StackInfo where
  languages : List String := []
  frameworks : List String := []
  package_managers : List String := []
  has_dockerfile : Bool := false
  has_docker_compose : Bool := false
  has_k8s_manifests : Bool := false
  dependencies : List (String × List (String × String)) := []
  language_versions : List (String × String) := []
  framework_versions : List (String × String) := []
  dockerfiles : List DockerfileInfo := []
deriving Repr, DecidableEq

/-- `Job` (model.py): one abstract pipeline job.  The pydantic field
`when` is rendered `when_cond` (Lean keyword clash). -/
structure Job where
  name : String
  stage : String
  image : Option String := none
  script : List String
  artifacts : Option (List String) := none
  only_branches : Option (List String) := none
  tags : Option (List String) := none
  when_cond : Option String := none
  environment : Option String := none
  dockerfile_path : Option String := none
  docker_context : Option String := none
  image_name : Option String := none
deriving Repr, DecidableEq

/-- `Pipeline` (model.py): ordered stages plus jobs. -/
structure Pipeline where
  stages : List String
  jobs : List Job
deriving Repr, DecidableEq

/-! ## Pipeline synthesizer (`src/core/services/builders/pipeline.py`) -/

/-- `_ensure_stage` (pipeline.py:9-11). -/
def ensure_stage (stages : List String) (stage : String) : List String :=
  if stage ∈ stages then stages else stages ++ [stage]

/-- `_has_node` (pipeline.py:14-25): js/ts language or a typical js
framework. -/
def has_node_stack (stack : StackInfo) : Bool :=
  stack.languages.any (fun lang => lang == "javascript" || lang == "typescript")
    || stack.frameworks.any (fun fw =>
        fw == "vue" || fw == "react" || fw == "angular" || fw == "express" || fw == "nestjs")

/-- `_node_pm` (pipeline.py:28-35). -/
def node_pm (stack : StackInfo) : String :=
  if "yarn" ∈ stack.package_managers then "yarn"
  else if "pnpm" ∈ stack.package_managers then "pnpm"
  else "npm"

/-- Python job: `python_tests` (pipeline.py:125-139). -/
def python_tests_job : Job :=
  { name := "python_tests", stage := "test", image := some "python:3.11-slim",
    script :=
      [ "if [ -f requirements.txt ]; then python -m pip install -r requirements.txt; else echo 'requirements.txt не найден — пропускаем установку зависимостей'; fi",
        "python -m pip install pytest || true",
        "pytest || echo 'pytest не настроен или тесты отсутствуют — отредактируйте команду'" ] }

/-- Python job: `python_lint` (pipeline.py:141-153). -/
def python_lint_job : Job :=
  { name := "python_lint", stage := "lint", image := some "python:3.11-slim",
    script :=
      [ "python -m pip install flake8 || echo 'flake8 не установлен'",
        "flake8 . || echo 'flake8 нашёл замечания или не настроен — отредактируйте команду'" ] }

/-- Node install/test/build/lint commands by package manager
(pipeline.py:165-188). -/
def node_cmds (pm : String) : String × String × String × String :=
  if pm == "yarn" then
    ( "corepack enable || npm i -g yarn; yarn install --frozen-lockfile || yarn install",
      "yarn test || echo 'yarn test не настроен — отредактируйте команду'",
      "yarn build || echo 'yarn build не настроен — отредактируйте команду'",
      "yarn lint || echo 'yarn lint не настроен — отредактируйте команду'" )
  else if pm == "pnpm" then
    ( "corepack enable || npm i -g pnpm; pnpm install",
      "pnpm test || echo 'pnpm test не настроен — отредактируйте команду'",
      "pnpm build || echo 'pnpm build не настроен — отредактируйте команду'",
      "pnpm lint || echo 'pnpm lint не настроен — отредактируйте команду'" )
  else
    ( "npm ci || npm install",
      "npm test || echo 'npm test не настроен — отредактируйте команду'",
      "npm run build || echo 'npm run build не настроен — отредактируйте команду'",
      "npm run lint || echo 'npm run lint не настроен — отредактируйте команду'" )

/-- Node jobs `node_lint`, `node_tests`, `node_build` (pipeline.py:190-216). -/
def node_jobs (pm : String) : List Job :=
  let cmds := node_cmds pm
  [ { name := "node_lint", stage := "lint", image := some "node:20-alpine",
      script := [cmds.1, cmds.2.2.2] },
    { name := "node_tests", stage := "test", image := some "node:20-alpine",
      script := [cmds.1, cmds.2.1] },
    { name := "node_build", stage := "build", image := some "node:20-alpine",
      script := [cmds.1, cmds.2.2.1], artifacts := some ["dist"] } ]

/-- Go jobs `go_tests`, `go_build` (pipeline.py:227-248). -/
def go_jobs : List Job :=
  [ { name := "go_tests", stage := "test", image := some "golang:1.22",
      script := ["go test ./... || echo 'go test завершился с ошибкой — проверьте тесты'"] },
    { name := "go_build", stage := "build", image := some "golang:1.22",
      script := ["go build ./... || echo 'go build завершился с ошибкой — проверьте конфигурацию проекта'"] } ]

/-- Java jobs `java_tests`, `java_build` (pipeline.py:259-283). -/
def java_jobs : List Job :=
  [ { name := "java_tests", stage := "test", image := some "maven:3.9-eclipse-temurin-17",
      script := ["if [ -f mvnw ]; then chmod +x mvnw; ./mvnw -B test; else mvn -B test; fi || echo 'mvn test завершился с ошибкой — отредактируйте pom.xml/профили'"] },
    { name := "java_build", stage := "build", image := some "maven:3.9-eclipse-temurin-17",
      script := ["if [ -f mvnw ]; then chmod +x mvnw; ./mvnw -B package -DskipTests; else mvn -B package -DskipTests; fi || echo 'mvn package завершился с ошибкой — проверьте pom.xml'"] } ]

/-- `java_sonar` quality job (pipeline.py:61-72). -/
def java_sonar_job : Job :=
  { name := "java_sonar", stage := "quality", image := some "maven:3.9-eclipse-temurin-17",
    script := ["if [ -f mvnw ]; then chmod +x mvnw; ./mvnw -B verify sonar:sonar; else mvn -B verify sonar:sonar; fi || echo 'SonarQube не настроен — укажите параметры sonar.* и переменные окружения SONAR_*'"] }

/-- `node_sonar` quality job (pipeline.py:77-87). -/
def node_sonar_job : Job :=
  { name := "node_sonar", stage := "quality", image := some "node:20-alpine",
    script := ["echo 'TODO: добавьте команду запуска SonarQube для фронтенда (например, npx sonar-scanner ...)'"] }

/-- `_append_quality_jobs`' java condition (pipeline.py:49-51):
`java ∈ languages and maven ∈ package_managers`. -/
def quality_has_java (stack : StackInfo) : Bool :=
  stack.languages.contains "java" && stack.package_managers.contains "maven"

/-- Jobs appended by `_append_quality_jobs` (pipeline.py:54-90). -/
def quality_jobs (stack : StackInfo) : List Job :=
  let has_java := quality_has_java stack
  let has_node := has_node_stack stack
  if !(has_java || has_node) then []
  else (if has_java then [java_sonar_job] else []) ++ (if has_node then [node_sonar_job] else [])

/-- Warning appended by `_append_quality_jobs` (pipeline.py:92-95). -/
def quality_warn_text : String :=
  "В stage quality добавлены SonarQube-заглушки (java_sonar/node_sonar). Настройте SONAR_HOST_URL / SONAR_TOKEN и конкретные команды анализа."

/-- Warnings appended by `_append_quality_jobs`. -/
def quality_warns (stack : StackInfo) : List String :=
  if quality_has_java stack || has_node_stack stack then [quality_warn_text] else []

/-- The job-name sanitizer of the docker fan-out
(`df.name.replace('-', '_').replace('.', '_')`, pipeline.py:305). -/
def sanitize_name (s : String) : String :=
  pyReplaceCh (pyReplaceCh s '-' '_') '.' '_'

/-- The synthesized image tag `my-image-<name>:latest` (pipeline.py:306). -/
def image_ref_of (name : String) : String := "my-image-" ++ name ++ ":latest"

/-- One docker job per discovered Dockerfile (pipeline.py:303-327). -/
def mk_docker_job (df : DockerfileInfo) : Job :=
  let image_ref := image_ref_of df.name
  { name := "docker_build_" ++ sanitize_name df.name,
    stage := "docker", image := some "docker:24",
    script :=
      [ "echo \"Сборка Docker-образа из существующего Dockerfile.\"",
        "docker build -f " ++ df.path ++ " " ++ (if df.context == "" then "." else df.context)
          ++ " -t " ++ image_ref ++ " || echo 'Настройте docker daemon / registry'",
        "echo 'При необходимости замените тег " ++ image_ref ++ " на адрес вашего registry.'" ],
    dockerfile_path := some df.path, docker_context := some df.context,
    image_name := some df.name }

/-- Warning of the docker fan-out branch (pipeline.py:329-332). -/
def docker_fanout_warn_text : String :=
  "Добавлены docker-задачи для каждого найденного Dockerfile. При необходимости отредактируйте теги образов и настройки registry."

/-- The generic `docker_build` fallback job (pipeline.py:338-349). -/
def generic_docker_job : Job :=
  { name := "docker_build", stage := "docker", image := some "docker:24",
    script :=
      [ "echo \"Сборка Docker-образа. Настройте свой registry и docker runner.\"",
        "docker build -t my-image:latest . || echo 'Настройте docker daemon / registry'" ] }

/-- Warning of the fallback branch (pipeline.py:357-360). -/
def docker_fallback_warn_text : String :=
  "Анализатор не вернул конкретные Dockerfile'ы. Пайплайн использует docker build . Рекомендуется донастроить анализатор, чтобы заполнить StackInfo.dockerfiles."

/-- The always-present deploy placeholder job (pipeline.py:362-372). -/
def deploy_job : Job :=
  { name := "deploy_placeholder", stage := "deploy",
    script := ["echo \"TODO: добавьте реальные команды деплоя (kubectl / ssh / helm и т.п.)\""] }

/-- Warning for a stack with none of the four ecosystems (pipeline.py:374-379). -/
def placeholder_warn_text : String :=
  "Не обнаружены Python/Node/Go/Java-проекты. Пайплайн содержит только placeholder-задачи. Отредактируйте команды под ваш стек."

/-- The sequence of `_ensure_stage` registrations of `build_pipeline`,
as a function of the ecosystem presence flags: python, node, go,
java-with-maven, quality, docker (pipeline.py:121-122, 159-161, 222-223,
254-255, 57, 293/337, 362). -/
def raw_stages (p n g jm q d : Bool) : List String :=
  let s : List String := []
  let s := if p then ensure_stage (ensure_stage s "lint") "test" else s
  let s := if n then ensure_stage (ensure_stage (ensure_stage s "lint") "test") "build" else s
  let s := if g then ensure_stage (ensure_stage s "test") "build" else s
  let s := if jm then ensure_stage (ensure_stage s "test") "build" else s
  let s := if q then ensure_stage s "quality" else s
  let s := if d then ensure_stage s "docker" else s
  ensure_stage s "deploy"

/-- The stage list of `build_pipeline` before canonical reordering, for a
given stack. -/
def registered_stages (stack : StackInfo) : List String :=
  raw_stages (stack.languages.contains "python") (has_node_stack stack)
    (stack.languages.contains "go")
    (stack.languages.contains "java" && stack.package_managers.contains "maven")
    (quality_has_java stack || has_node_stack stack)
    (!stack.dockerfiles.isEmpty || stack.has_dockerfile)

/-- The fixed stage precedence `canonical_order` (pipeline.py:386). -/
def canonical_order : List String := ["lint", "test", "quality", "build", "docker", "deploy"]

/-- The stage reordering of pipeline.py:383-396: dedup keeping first
registration, keep the canonical precedence for stages in the table, and
append any other stage in first-registration order. -/
def canonicalize_stages (stages : List String) : List String :=
  if stages.isEmpty then []
  else
    let unique := pyDedup stages
    let ordered := canonical_order.foldl
      (fun acc name => if name ∈ unique then acc ++ [name] else acc) []
    unique.foldl (fun acc name => if name ∈ acc then acc else acc ++ [name]) ordered

/-- `build_pipeline` (pipeline.py:98-406), returning the pipeline and the
warnings (click output and the `logs` trail are reporting only and are not
modelled).  Job segments appear in the exact append order of the source;
the stage accumulator is factored into `registered_stages`. -/
def build_pipeline (stack : StackInfo) : Pipeline × List String :=
  let has_python := stack.languages.contains "python"
  let has_node := has_node_stack stack
  let has_go := stack.languages.contains "go"
  let has_java := stack.languages.contains "java"
  let pm_node := node_pm stack
  let dockerfiles := stack.dockerfiles
  let jobs : List Job :=
    (if has_python then [python_tests_job, python_lint_job] else [])
      ++ (if has_node then node_jobs pm_node else [])
      ++ (if has_go then go_jobs else [])
      ++ (if has_java && stack.package_managers.contains "maven" then java_jobs else [])
      ++ quality_jobs stack
      ++ (if !dockerfiles.isEmpty then dockerfiles.map mk_docker_job
          else if stack.has_dockerfile then [generic_docker_job] else [])
      ++ [deploy_job]
  let warnings : List String :=
    quality_warns stack
      ++ (if !dockerfiles.isEmpty then [docker_fanout_warn_text]
          else if stack.has_dockerfile then [docker_fallback_warn_text] else [])
      ++ (if !(has_python || has_node || has_go || has_java) then [placeholder_warn_text] else [])
  ({ stages := canonicalize_stages (registered_stages stack), jobs := jobs }, warnings)

/-! ## Repository model and tree walk (`analyzer/core.py`) -/

/-- One file of the repository: relative path components (last one is the
file name) and text content.  A repository tree is the list of its files in
filesystem enumeration order. -/
structure SrcFile where
  parts : List String
  content : String
deriving Repr, DecidableEq

/-- `IGNORED_DIRS` (core.py:14-27). -/
def IGNORED_DIRS : List String :=
  [".git", ".hg", ".svn", "node_modules", ".venv", "venv", "__pycache__",
   "dist", "build", "target", ".idea", ".vscode"]

/-- A file's name (`Path.name`). -/
def file_name (f : SrcFile) : String := f.parts.getLastD ""

/-- `_iter_files` (core.py:49-56): `os.walk` pruning any directory whose
name is in `IGNORED_DIRS`, at any depth. -/
def iter_files (files : List SrcFile) : List SrcFile :=
  files.filter (fun f => f.parts.dropLast.all (fun d => !(IGNORED_DIRS.contains d)))

/-- `Path.suffix` + `.lower()`: the extension from the last dot of the file
name; empty when the dot is first or last (pathlib: nonempty iff
`0 < name.rfind('.') < len(name) - 1`). -/
def path_suffix (nm : String) : String :=
  let cs := nm.data
  let n := cs.length
  let irev := cs.reverse.indexOf '.'
  if irev < n then
    let i := n - 1 - irev
    if 0 < i ∧ i < n - 1 then ⟨cs.drop i⟩ else ""
  else ""

/-- `EXT_TO_LANGUAGE` (core.py:30-46). -/
def EXT_TO_LANGUAGE : List (String × String) :=
  [(".py", "python"),
   (".js", "javascript"), (".jsx", "javascript"), (".ts", "javascript"), (".tsx", "javascript"),
   (".java", "java"), (".kt", "java"),
   (".go", "go")]

/-- The per-language file counts of `_detect_languages` (core.py:149-165). -/
def detect_language_counts (files : List SrcFile) : List (String × Nat) :=
  (iter_files files).foldl (fun m f =>
    match alookup EXT_TO_LANGUAGE (pyLower (path_suffix (file_name f))) with
    | none => m
    | some lang => aset m lang ((alookup m lang).getD 0 + 1)) []

/-- The sorted language list of `_detect_languages` (`sorted(counts.keys())`). -/
def detect_languages_sorted (files : List SrcFile) : List String :=
  pySortStr ((detect_language_counts files).map Prod.fst)

/-- `_group_project_files` (core.py:59-104).  The source walks once with an
`elif` cascade over pairwise distinct lowercased names; per-name filters
over the same walk produce the same buckets in the same order. -/
structure GroupedFiles where
  requirements : List SrcFile
  pyproject : List SrcFile
  pipfile : List SrcFile
  package_json : List SrcFile
  pom : List SrcFile
  gradle : List SrcFile
  go_mod : List SrcFile
  tsconfig : List SrcFile
deriving Repr

/-- `_group_project_files` (core.py:59-104). -/
def group_project_files (files : List SrcFile) : GroupedFiles :=
  let fs := iter_files files
  { requirements := fs.filter (fun f => pyLower (file_name f) == "requirements.txt"),
    pyproject := fs.filter (fun f => pyLower (file_name f) == "pyproject.toml"),
    pipfile := fs.filter (fun f => pyLower (file_name f) == "pipfile"),
    package_json := fs.filter (fun f => pyLower (file_name f) == "package.json"),
    pom := fs.filter (fun f => pyLower (file_name f) == "pom.xml"),
    gradle := fs.filter (fun f =>
      pyLower (file_name f) == "build.gradle" || pyLower (file_name f) == "build.gradle.kts"),
    go_mod := fs.filter (fun f => pyLower (file_name f) == "go.mod"),
    tsconfig := fs.filter (fun f => pyLower (file_name f) == "tsconfig.json") }

/-- `(parent / name).exists()`: direct filesystem probe, so it checks the
raw tree, not the pruned walk. -/
def exists_path (files : List SrcFile) (parts : List String) : Bool :=
  files.any (fun f => f.parts == parts)

/-- `_detect_package_managers` (core.py:168-210).  The `package-lock.json`
branch and the default branch both add `npm`, exactly as in the source. -/
def detect_package_managers (files : List SrcFile) : List String :=
  let grouped := group_project_files files
  let pm : List String := []
  let pm := if !grouped.requirements.isEmpty then pm ++ ["pip"] else pm
  let pm := if !grouped.pyproject.isEmpty then pm ++ ["poetry"] else pm
  let pm := if !grouped.pipfile.isEmpty then pm ++ ["pipenv"] else pm
  let pm := grouped.package_json.foldl (fun pm pkg =>
      let parent := pkg.parts.dropLast
      if exists_path files (parent ++ ["yarn.lock"]) then pm ++ ["yarn"]
      else if exists_path files (parent ++ ["pnpm-lock.yaml"]) then pm ++ ["pnpm"]
      else pm ++ ["npm"]) pm
  let pm := if !grouped.pom.isEmpty then pm ++ ["maven"] else pm
  let pm := if !grouped.gradle.isEmpty then pm ++ ["gradle"] else pm
  let pm := if !grouped.go_mod.isEmpty then pm ++ ["go-mod"] else pm
  pySortStr (pyDedup pm)

/-! ## JSON (`json.loads` for `package.json` files)

A fuel-based parser producing Python-dict semantics: repeated object keys
keep the last value in the first key's position.  JSON numbers are kept as
their lexeme (no claim depends on numeric normalization); the lexeme
grammar is the permissive char class the analyzer never distinguishes. -/

inductive JVal where
  | jnull
  | jbool (b : Bool)
  | jnum (lexeme : String)
  | jstr (s : String)
  | jarr (xs : List JVal)
  | jobj (fields : List (String × JVal))
deriving Repr

def isJsonWs (c : Char) : Bool := c == ' ' || c == '\t' || c == '\n' || c == '\x0d'

def hexVal (c : Char) : Option Nat :=
  if c.toNat ≥ 48 ∧ c.toNat ≤ 57 then some (c.toNat - 48)
  else if c.toNat ≥ 97 ∧ c.toNat ≤ 102 then some (c.toNat - 87)
  else if c.toNat ≥ 65 ∧ c.toNat ≤ 70 then some (c.toNat - 55)
  else none

def parseJStr : Nat → List Char → List Char → Option (String × List Char)
  | 0, _, _ => none
  | _ + 1, _, [] => none
  | fuel + 1, acc, c :: rest =>
    if c == '"' then some (⟨acc.reverse⟩, rest)
    else if c == '\\' then
      match rest with
      | [] => none
      | e :: r2 =>
        if e == '"' then parseJStr fuel ('"' :: acc) r2
        else if e == '\\' then parseJStr fuel ('\\' :: acc) r2
        else if e == '/' then parseJStr fuel ('/' :: acc) r2
        else if e == 'b' then parseJStr fuel ('\x08' :: acc) r2
        else if e == 'f' then parseJStr fuel ('\x0c' :: acc) r2
        else if e == 'n' then parseJStr fuel ('\n' :: acc) r2
        else if e == 'r' then parseJStr fuel ('\x0d' :: acc) r2
        else if e == 't' then parseJStr fuel ('\t' :: acc) r2
        else if e == 'u' then
          match r2 with
          | a :: b :: c2 :: d :: r3 =>
            match hexVal a, hexVal b, hexVal c2, hexVal d with
            | some x1, some x2, some x3, some x4 =>
              parseJStr fuel (Char.ofNat (((x1 * 16 + x2) * 16 + x3) * 16 + x4) :: acc) r3
            | _, _, _, _ => none
          | _ => none
        else none
    else parseJStr fuel (c :: acc) rest

def jsonNumCh (c : Char) : Bool :=
  c.isDigit || c == '-' || c == '+' || c == '.' || c == 'e' || c == 'E'

mutual

def parseJVal : Nat → List Char → Option (JVal × List Char)
  | 0, _ => none
  | fuel + 1, cs0 =>
    let cs := cs0.dropWhile isJsonWs
    match cs with
    | [] => none
    | '"' :: rest => (parseJStr fuel [] rest).map (fun p => (JVal.jstr p.1, p.2))
    | '{' :: rest =>
      match rest.dropWhile isJsonWs with
      | '}' :: r3 => some (JVal.jobj [], r3)
      | _ => (parseJFields fuel rest []).map (fun p => (JVal.jobj p.1, p.2))
    | '[' :: rest =>
      match rest.dropWhile isJsonWs with
      | ']' :: r3 => some (JVal.jarr [], r3)
      | _ => (parseJItems fuel rest []).map (fun p => (JVal.jarr p.1, p.2))
    | c :: _ =>
      if ['t', 'r', 'u', 'e'].isPrefixOf cs then some (JVal.jbool true, cs.drop 4)
      else if ['f', 'a', 'l', 's', 'e'].isPrefixOf cs then some (JVal.jbool false, cs.drop 5)
      else if ['n', 'u', 'l', 'l'].isPrefixOf cs then some (JVal.jnull, cs.drop 4)
      else if c.isDigit || c == '-' then
        let lex := cs.takeWhile jsonNumCh
        some (JVal.jnum ⟨lex⟩, cs.drop lex.length)
      else none

def parseJFields :
    Nat → List Char → List (String × JVal) → Option (List (String × JVal) × List Char)
  | 0, _, _ => none
  | fuel + 1, cs0, acc =>
    match cs0.dropWhile isJsonWs with
    | '"' :: rest =>
      match parseJStr fuel [] rest with
      | none => none
      | some (k, r1) =>
        match r1.dropWhile isJsonWs with
        | ':' :: r2 =>
          match parseJVal fuel r2 with
          | none => none
          | some (v, r3) =>
            match r3.dropWhile isJsonWs with
            | ',' :: r4 => parseJFields fuel r4 (aset acc k v)
            | '}' :: r4 => some (aset acc k v, r4)
            | _ => none
        | _ => none
    | _ => none

def parseJItems : Nat → List Char → List JVal → Option (List JVal × List Char)
  | 0, _, _ => none
  | fuel + 1, cs0, acc =>
    match parseJVal fuel cs0 with
    | none => none
    | some (v, r) =>
      match r.dropWhile isJsonWs with
      | ',' :: r2 => parseJItems fuel r2 (acc ++ [v])
      | ']' :: r2 => some (acc ++ [v], r2)
      | _ => none

end

/-- `json.loads`: whole-document parse, `none` on any error. -/
def json_loads (content : String) : Option JVal :=
  match parseJVal (2 * content.data.length + 8) content.data with
  | some (v, rest) => if (rest.dropWhile isJsonWs).isEmpty then some v else none
  | none => none

/-- `data.get(key)` on a parsed JSON object. -/
def jget (v : JVal) (key : String) : Option JVal :=
  match v with
  | JVal.jobj fs => alookup fs key
  | _ => none

/-- `data.get(key, {}) or {}` followed by `.items()`: the fields when the
value is an object, `[]` otherwise (a non-dict truthy value would raise in
the source; no analyzed tree exercises that). -/
def jgetObjFields (v : JVal) (key : String) : List (String × JVal) :=
  match jget v key with
  | some (JVal.jobj fs) => fs
  | _ => []

/-- Python truthiness of a JSON value (numeric zero approximated by its
usual lexemes; unexercised by the claims). -/
def jTruthy : JVal → Bool
  | JVal.jnull => false
  | JVal.jbool b => b
  | JVal.jstr s => !(s == "")
  | JVal.jnum lex => !(lex == "0" || lex == "0.0" || lex == "-0" || lex == "-0.0")
  | JVal.jarr xs => !xs.isEmpty
  | JVal.jobj fs => !fs.isEmpty

/-- Python `str(v)` of a JSON value (container reprs abbreviated;
unexercised — versions in `package.json` are strings). -/
def jvalToPyStr : JVal → String
  | JVal.jstr s => s
  | JVal.jnum lex => lex
  | JVal.jbool true => "True"
  | JVal.jbool false => "False"
  | JVal.jnull => "None"
  | JVal.jarr _ => "[...]"
  | JVal.jobj _ => "\x7b...\x7d"

/-! ## Framework detection (`_detect_frameworks`, core.py:213-282) -/

/-- `_detect_frameworks` (core.py:213-282): substring greps over Python and
Java manifests, dependency-key matches over `package.json`. -/
def detect_frameworks (files : List SrcFile) : List String :=
  let grouped := group_project_files files
  let fw : List String := []
  let fw := (grouped.requirements ++ grouped.pyproject).foldl (fun fw f =>
      let content := pyLower f.content
      let fw := if pyInStr "fastapi" content then addSet fw "fastapi" else fw
      let fw := if pyInStr "flask" content then addSet fw "flask" else fw
      if pyInStr "django" content then addSet fw "django" else fw) fw
  let fw := grouped.package_json.foldl (fun fw pkg =>
      match json_loads pkg.content with
      | none => fw
      | some data =>
        let deps := jgetObjFields data "dependencies"
        let dev := jgetObjFields data "devDependencies"
        let all_names := pyDedup ((deps ++ dev).map (fun p => pyLower p.1))
        let fw := if all_names.contains "vue" || all_names.any (fun n => pyStarts n "@vue/") then addSet fw "vue" else fw
        let fw := if all_names.contains "react" || all_names.any (fun n => pyStarts n "react-") then addSet fw "react" else fw
        let fw := if all_names.contains "@angular/core" then addSet fw "angular" else fw
        let fw := if all_names.contains "express" then addSet fw "express" else fw
        if all_names.contains "nestjs" || all_names.contains "@nestjs/core" then addSet fw "nestjs" else fw) fw
  let fw := grouped.pom.foldl (fun fw f =>
      let content := pyLower f.content
      if pyInStr "spring-boot-starter" content || pyInStr "org.springframework" content
      then addSet fw "spring" else fw) fw
  let fw := grouped.gradle.foldl (fun fw f =>
      let content := pyLower f.content
      if pyInStr "spring-boot-starter" content || pyInStr "org.springframework" content
      then addSet fw "spring" else fw) fw
  pySortStr fw

/-! ## Python requirements parsing (`_parse_python_requirements_file`,
core.py:287-314)

The pattern `^([A-Za-z0-9_.\-]+)(?:\[[^\]]+\])?\s*([<>=!~]+)\s*([^\s]+)` is
deterministic: the name class, the extras bracket and the operator class are
pairwise disjoint, so greedy maximal munch is the unique match and failure
of the bracketed extras cannot be repaired by backtracking. -/

/-- `[A-Za-z0-9_.\-]`. -/
def reqNameCh (c : Char) : Bool := c.isAlphanum || c == '_' || c == '.' || c == '-'

/-- `[<>=!~]`. -/
def reqOpCh (c : Char) : Bool := c == '<' || c == '>' || c == '=' || c == '!' || c == '~'

/-- `re.match` of the requirements pattern: `some (name.lower(), op, version)`
on a match, `none` otherwise (core.py:304-311). -/
def parse_req_line (line : String) : Option (String × String × String) :=
  let cs := line.data
  let nm := cs.takeWhile reqNameCh
  if nm.isEmpty then none
  else
    let r0 := cs.drop nm.length
    let extras : Option (List Char) :=
      match r0 with
      | '[' :: r2 =>
        let inner := r2.takeWhile (fun c => c != ']')
        if inner.isEmpty then none
        else
          match r2.drop inner.length with
          | ']' :: r3 => some r3
          | _ => none
      | _ => some r0
    match extras with
    | none => none
    | some r1 =>
      let r2 := r1.dropWhile isWsCh
      let op := r2.takeWhile reqOpCh
      if op.isEmpty then none
      else
        let r3 := (r2.drop op.length).dropWhile isWsCh
        let ver := r3.takeWhile (fun c => !(isWsCh c))
        if ver.isEmpty then none
        else some (pyLower ⟨nm⟩, ⟨op⟩, ⟨ver⟩)

/-- Line preprocessing of `_parse_python_requirements_file`
(core.py:298-302): strip, skip blank/comment lines, cut an environment
marker at `;`; `none` when the line is skipped. -/
def req_effective (rawLine : String) : Option String :=
  let line := pyStrip rawLine
  if line == "" || pyStarts line "#" then none
  else some (if pyInStr ";" line then pyStrip ⟨line.data.takeWhile (fun c => c != ';')⟩ else line)

/-- One loop iteration of `_parse_python_requirements_file`
(core.py:297-313): record `name → version` with the pin rule: `==`
always assigns, any other operator assigns only an unset name. -/
def req_step (deps : List (String × String)) (rawLine : String) : List (String × String) :=
  match req_effective rawLine with
  | none => deps
  | some line =>
    match parse_req_line line with
    | none => deps
    | some (name, op, ver) =>
      if op == "==" || !(akey deps name) then aset deps name ver else deps

/-- `_parse_python_requirements_file` (core.py:287-314) on a file content. -/
def parse_python_requirements_file (content : String) : List (String × String) :=
  (pySplitLines content).foldl req_step []

/-! ## Scanner embeds for the `re` patterns of the collectors -/

/-- Try a parser at every suffix, keep the first success (`re.search`). -/
def scanFirst {α : Type} (p : List Char → Option α) : List Char → Option α
  | [] => p []
  | c :: t =>
    match p (c :: t) with
    | some a => some a
    | none => scanFirst p t

/-- Non-overlapping scan (`re.finditer`): try at every position, resume
after each match; fuel bounds the recursion by the input length. -/
def scanAllGo {α : Type} (p : List Char → Option (α × List Char)) :
    Nat → List Char → List α
  | 0, _ => []
  | _ + 1, [] => []
  | fuel + 1, c :: t =>
    match p (c :: t) with
    | some (a, rest) =>
      a :: (if rest.length < t.length + 1 then scanAllGo p fuel rest else scanAllGo p fuel t)
    | none => scanAllGo p fuel t

/-- `re.finditer`, collecting every non-overlapping match. -/
def scanAll {α : Type} (p : List Char → Option (α × List Char)) (cs : List Char) : List α :=
  scanAllGo p cs.length cs

/-- Case-sensitive literal. -/
def matchLit (lit cs : List Char) : Option (List Char) :=
  if lit.isPrefixOf cs then some (cs.drop lit.length) else none

/-- Case-insensitive literal (give `lit` lowercased). -/
def matchLitCI (lit cs : List Char) : Option (List Char) :=
  if ((cs.take lit.length).map Char.toLower) == lit then some (cs.drop lit.length) else none

/-- `\s+`. -/
def matchWs1 (cs : List Char) : Option (List Char) :=
  let w := cs.takeWhile isWsCh
  if w.isEmpty then none else some (cs.drop w.length)

/-- `[\w.\-]` (`\w` ASCII, as in the analyzed identifiers). -/
def wordDotDashCh (c : Char) : Bool := c.isAlphanum || c == '_' || c == '.' || c == '-'

/-- `from\s+python:([\w.\-]+)` with IGNORECASE, at one position
(core.py:358). -/
def fromPythonAt (cs : List Char) : Option String :=
  (matchLitCI "from".data cs).bind fun r1 =>
  (matchWs1 r1).bind fun r2 =>
  (matchLitCI "python:".data r2).bind fun r3 =>
  let t := r3.takeWhile wordDotDashCh
  if t.isEmpty then none else some ⟨t⟩

/-- `\s*([^<]+)` followed by a closing literal: the tag-text captures of the
pom patterns.  When the text is all whitespace the regex still matches with
a whitespace capture; its later `.strip()` makes that the empty string, so
the capture is returned pre-lstripped (stripped again at each use site). -/
def matchTagText (close r1 : List Char) : Option (String × List Char) :=
  let ws := r1.takeWhile isWsCh
  let rest := r1.drop ws.length
  let t := rest.takeWhile (fun c => c != '<')
  if t.isEmpty && ws.isEmpty then none
  else (matchLit close (rest.drop t.length)).map (fun r => ((⟨t⟩ : String), r))

/-- `<maven\.compiler\.source>\s*([^<]+)</maven\.compiler\.source>` at one
position (core.py:539-542). -/
def mavenCompilerSourceAt (cs : List Char) : Option String :=
  (matchLit "<maven.compiler.source>".data cs).bind fun r1 =>
  (matchTagText "</maven.compiler.source>".data r1).map (fun p => p.1)

/-- The `<dependency>` pattern of core.py:546-552 at one position:
`(groupId, artifactId, version-or-empty)` plus the resume point. -/
def pomDepAt (cs : List Char) : Option ((String × String × String) × List Char) :=
  (matchLit "<dependency>".data cs).bind fun r =>
  (matchLit "<groupId>".data (r.dropWhile isWsCh)).bind fun r =>
  (matchTagText "</groupId>".data r).bind fun gp =>
  (matchLit "<artifactId>".data (gp.2.dropWhile isWsCh)).bind fun r =>
  (matchTagText "</artifactId>".data r).bind fun ap =>
  let r2 := ap.2.dropWhile isWsCh
  match (matchLit "<version>".data r2).bind (fun r3 => matchTagText "</version>".data r3) with
  | some (v, r4) => some ((gp.1, ap.1, v), r4)
  | none => some ((gp.1, ap.1, ""), r2)

/-- `'` or `"`. -/
def isQuoteCh (c : Char) : Bool := c == '\'' || c == '"'

/-- `sourceCompatibility\s*=\s*['\"]([^'\"]+)['\"]` at one position
(core.py:581-584). -/
def sourceCompatAt (cs : List Char) : Option String :=
  (matchLit "sourceCompatibility".data cs).bind fun r =>
  (matchLit "=".data (r.dropWhile isWsCh)).bind fun r =>
  match r.dropWhile isWsCh with
  | q :: r2 =>
    if isQuoteCh q then
      let t := r2.takeWhile (fun c => !(isQuoteCh c))
      if t.isEmpty then none
      else
        match r2.drop t.length with
        | q2 :: _ => if isQuoteCh q2 then some ⟨t⟩ else none
        | [] => none
    else none
  | [] => none

/-- The gradle dependency-declaration keywords, in the alternation order of
the pattern (core.py:589). -/
def gradleKeywords : List String :=
  ["implementation", "api", "compileOnly", "runtimeOnly", "testImplementation"]

/-- The gradle dependency pattern of core.py:588-591 at one position:
keyword, `\s+`, quote, `group:artifact:version`, quote. -/
def gradleDepAt (cs : List Char) : Option ((String × String × String) × List Char) :=
  (gradleKeywords.foldl (fun acc kw => acc <|> matchLit kw.data cs) none).bind fun r =>
  (matchWs1 r).bind fun r =>
  match r with
  | q :: r2 =>
    if isQuoteCh q then
      let g := r2.takeWhile (fun c => !(isQuoteCh c) && c != ':')
      if g.isEmpty then none
      else
        match r2.drop g.length with
        | ':' :: r3 =>
          let a := r3.takeWhile (fun c => !(isQuoteCh c) && c != ':')
          if a.isEmpty then none
          else
            match r3.drop a.length with
            | ':' :: r4 =>
              let v := r4.takeWhile (fun c => !(isQuoteCh c) && c != '\n')
              if v.isEmpty then none
              else
                match r4.drop v.length with
                | q2 :: r5 => if isQuoteCh q2 then some ((⟨g⟩, ⟨a⟩, ⟨v⟩), r5) else none
                | [] => none
            | _ => none
        | _ => none
    else none
  | [] => none

/-! ## Dependency and version collectors (core.py:285-619) -/

/-- One collector's three maps (the triple returned by each
`_collect_*`). -/
structure CollectorOut where
  dependencies : List (String × List (String × String)) := []
  language_versions : List (String × String) := []
  framework_versions : List (String × String) := []
deriving Repr, DecidableEq

/-- First success of `f` over a list. -/
def findFirstOpt {α β : Type} (f : α → Option β) : List α → Option β
  | [] => none
  | x :: t =>
    match f x with
    | some b => some b
    | none => findFirstOpt f t

/-- `strip("\"'")`. -/
def pyStripQuotes (s : String) : String :=
  ⟨((s.data.dropWhile isQuoteCh).reverse.dropWhile isQuoteCh).reverse⟩

/-- Everything after the first `=` (`s.split("=", 1)[1]`); caller
guarantees `=` occurs. -/
def afterFirstEq (s : String) : String := ⟨(s.data.dropWhile (fun c => c != '=')).drop 1⟩

/-- One pyproject line of `_detect_python_version` (core.py:341-348):
`requires-python = ...` or `python = ...`. -/
def pyproject_version_of_line (raw : String) : Option String :=
  let s := pyStrip raw
  if pyStarts (pyLower s) "requires-python" && pyInStr "=" s then
    some (pyStripQuotes (pyStrip (afterFirstEq s)))
  else if pyStarts (pyLower s) "python" && pyInStr "=" s then
    some (pyStripQuotes (pyStrip (afterFirstEq s)))
  else none

/-- `_detect_python_version` (core.py:317-362): `.python-version` file at
the root, then pyproject keys, then `FROM python:<tag>` in a Dockerfile;
first hit wins. -/
def detect_python_version (files : List SrcFile) : Option String :=
  let fromPyproject : Option String :=
    findFirstOpt
      (fun f => findFirstOpt pyproject_version_of_line (pySplitLines f.content))
      (group_project_files files).pyproject
  let fromDocker : Option String :=
    findFirstOpt
      (fun f =>
        let nm := pyLower (file_name f)
        if nm == "dockerfile" || pyStarts nm "dockerfile." then
          (scanFirst fromPythonAt f.content.data).map pyStrip
        else none)
      (iter_files files)
  match files.find? (fun f => f.parts == [".python-version"]) with
  | some f =>
    let v := pyStrip f.content
    if v != "" then some v else (fromPyproject <|> fromDocker)
  | none => fromPyproject <|> fromDocker

/-- `_collect_python` (core.py:365-394). -/
def collect_python (files : List SrcFile) : CollectorOut :=
  let grouped := group_project_files files
  let py_deps := grouped.requirements.foldl (fun py_deps f =>
      (parse_python_requirements_file f.content).foldl
        (fun d p => ainsertNew d p.1 p.2) py_deps) []
  let dependencies := if py_deps.isEmpty then [] else [("python", py_deps)]
  let language_versions :=
    match detect_python_version files with
    | some v => [("python", v)]
    | none => []
  let framework_versions :=
    if !py_deps.isEmpty then
      let deps_lower := py_deps.foldl (fun m p => aset m (pyLower p.1) p.2) []
      ["fastapi", "django", "flask"].foldl (fun fv fwn =>
        match alookup deps_lower fwn with
        | some v => aset fv fwn v
        | none => fv) []
    else []
  { dependencies := dependencies, language_versions := language_versions,
    framework_versions := framework_versions }

/-- `_collect_node` (core.py:399-444). -/
def collect_node (files : List SrcFile) : CollectorOut :=
  let grouped := group_project_files files
  let st := grouped.package_json.foldl
    (fun (st : List (String × String) × List (String × String)) pkg =>
      match json_loads pkg.content with
      | none => st
      | some data =>
        let node_deps := ["dependencies", "devDependencies"].foldl (fun nd sect =>
            (jgetObjFields data sect).foldl
              (fun nd p => ainsertNew nd (pyLower p.1) (jvalToPyStr p.2)) nd) st.1
        let language_versions :=
          match (jget data "engines").bind (fun eng => jget eng "node") with
          | some nodeEngine =>
            if jTruthy nodeEngine && !(akey st.2 "node") then
              st.2 ++ [("node", jvalToPyStr nodeEngine)]
            else st.2
          | none => st.2
        (node_deps, language_versions))
    ([], [])
  let node_deps := st.1
  let dependencies := if node_deps.isEmpty then [] else [("node", node_deps)]
  let framework_versions :=
    if !node_deps.isEmpty then
      [("vue", "vue"), ("react", "react"), ("@angular/core", "angular"),
       ("express", "express"), ("nestjs", "nestjs"), ("@nestjs/core", "nestjs"),
       ("typescript", "typescript")].foldl
        (fun fv p =>
          match alookup node_deps p.1 with
          | some v => if !(akey fv p.2) then fv ++ [(p.2, v)] else fv
          | none => fv) []
    else []
  { dependencies := dependencies, language_versions := st.2,
    framework_versions := framework_versions }

/-- The per-line state machine of `_collect_go` (core.py:471-500):
`(in_block, go_deps, language_versions)`. -/
def go_mod_line_step (acc : Bool × List (String × String) × List (String × String))
    (line : String) : Bool × List (String × String) × List (String × String) :=
  let in_block := acc.1
  let go_deps := acc.2.1
  let language_versions := acc.2.2
  let s := pyStrip line
  if s == "" || pyStarts s "//" then acc
  else if pyStarts s "go " then
    let parts := pySplitWs s
    if parts.length ≥ 2 && !(akey language_versions "go") then
      (in_block, go_deps, language_versions ++ [("go", parts.getD 1 "")])
    else acc
  else if pyStarts s "require (" then (true, go_deps, language_versions)
  else if in_block then
    if pyStarts s ")" then (false, go_deps, language_versions)
    else
      let parts := pySplitWs s
      if parts.length ≥ 2 then
        (in_block, aset go_deps (parts.getD 0 "") (parts.getD 1 ""), language_versions)
      else acc
  else if pyStarts s "require " then
    let parts := pySplitWs s
    if parts.length ≥ 3 then
      (in_block, aset go_deps (parts.getD 1 "") (parts.getD 2 ""), language_versions)
    else acc
  else acc

/-- `_collect_go` (core.py:449-514). -/
def collect_go (files : List SrcFile) : CollectorOut :=
  let grouped := group_project_files files
  if grouped.go_mod.isEmpty then {}
  else
    let st := grouped.go_mod.foldl
      (fun (st : List (String × String) × List (String × String)) gm =>
        let inner := (pySplitLines gm.content).foldl go_mod_line_step (false, st.1, st.2)
        (inner.2.1, inner.2.2))
      ([], [])
    let go_deps := st.1
    let dependencies := if go_deps.isEmpty then [] else [("go", go_deps)]
    let framework_versions :=
      if !go_deps.isEmpty then
        go_deps.foldl (fun fv p =>
          let lower := pyLower p.1
          let fv := if pyInStr "gin-gonic/gin" lower && !(akey fv "gin") then fv ++ [("gin", p.2)] else fv
          let fv := if pyInStr "labstack/echo" lower && !(akey fv "echo") then fv ++ [("echo", p.2)] else fv
          if pyInStr "gofiber/fiber" lower && !(akey fv "fiber") then fv ++ [("fiber", p.2)] else fv) []
      else []
    { dependencies := dependencies, language_versions := st.2,
      framework_versions := framework_versions }

/-- Processing of one matched java/kotlin dependency declaration shared by
the pom and gradle loops of `_collect_java_kotlin` (core.py:553-572 and
592-614); `withKtor` enables the gradle-only `io.ktor` rule. -/
def java_dep_step (withKtor : Bool)
    (st : List (String × String) × List (String × String) × List (String × String))
    (dep : String × String × String) :
    List (String × String) × List (String × String) × List (String × String) :=
  let group_id := pyStrip dep.1
  let artifact_id := pyStrip dep.2.1
  let version := pyStrip dep.2.2
  let java_deps := ainsertNew st.1 (group_id ++ ":" ++ artifact_id) version
  let language_versions := st.2.1
  let framework_versions := st.2.2
  let framework_versions :=
    if group_id == "org.springframework.boot" && pyStarts artifact_id "spring-boot-starter"
        && !(akey framework_versions "spring") && version != "" then
      framework_versions ++ [("spring", version)]
    else framework_versions
  let framework_versions :=
    if (pyInStr "junit" (pyLower group_id) || pyInStr "junit" (pyLower artifact_id))
        && !(akey framework_versions "junit") && version != "" then
      framework_versions ++ [("junit", version)]
    else framework_versions
  let language_versions :=
    if pyStarts group_id "org.jetbrains.kotlin" && !(akey language_versions "kotlin")
        && version != "" then
      language_versions ++ [("kotlin", version)]
    else language_versions
  let framework_versions :=
    if withKtor && pyStarts group_id "io.ktor" && !(akey framework_versions "ktor")
        && version != "" then
      framework_versions ++ [("ktor", version)]
    else framework_versions
  (java_deps, language_versions, framework_versions)

/-- `_collect_java_kotlin` (core.py:519-619). -/
def collect_java_kotlin (files : List SrcFile) : CollectorOut :=
  let grouped := group_project_files files
  let st1 := grouped.pom.foldl
    (fun (st : List (String × String) × List (String × String) × List (String × String)) pom =>
      let content := pom.content.data
      let language_versions :=
        match scanFirst mavenCompilerSourceAt content with
        | some v => if !(akey st.2.1 "java") then st.2.1 ++ [("java", pyStrip v)] else st.2.1
        | none => st.2.1
      (scanAll pomDepAt content).foldl (java_dep_step false)
        (st.1, language_versions, st.2.2))
    ([], [], [])
  let st2 := grouped.gradle.foldl
    (fun (st : List (String × String) × List (String × String) × List (String × String)) gf =>
      let content := gf.content.data
      let language_versions :=
        match scanFirst sourceCompatAt content with
        | some v => if !(akey st.2.1 "java") then st.2.1 ++ [("java", pyStrip v)] else st.2.1
        | none => st.2.1
      (scanAll gradleDepAt content).foldl (java_dep_step true)
        (st.1, language_versions, st.2.2))
    st1
  let java_deps := st2.1
  let dependencies := if java_deps.isEmpty then [] else [("java", java_deps)]
  { dependencies := dependencies, language_versions := st2.2.1,
    framework_versions := st2.2.2 }

/-- One merge iteration of `_detect_dependencies_and_versions`
(core.py:634-647): per-ecosystem dependency maps are merged with
`dict.setdefault` + `dict.update` (assignment, overwriting), language and
framework versions with `if k not in: ...` (first occurrence kept). -/
def merge_step (all : CollectorOut) (o : CollectorOut) : CollectorOut :=
  { dependencies := o.dependencies.foldl (fun dall p =>
      let dst := (alookup dall p.1).getD []
      let dst := p.2.foldl (fun d q => aset d q.1 q.2) dst
      aset dall p.1 dst) all.dependencies,
    language_versions :=
      o.language_versions.foldl (fun m q => ainsertNew m q.1 q.2) all.language_versions,
    framework_versions :=
      o.framework_versions.foldl (fun m q => ainsertNew m q.1 q.2) all.framework_versions }

/-- The sequential reduction over the collector outputs, in collector
order. -/
def merge_collector_outputs (outs : List CollectorOut) : CollectorOut :=
  outs.foldl merge_step {}

/-- `_detect_dependencies_and_versions` (core.py:622-665): the four
collectors run in the fixed order python, node, go, java/kotlin, merged by
`merge_step`. -/
def detect_dependencies_and_versions (files : List SrcFile) : CollectorOut :=
  merge_collector_outputs
    [collect_python files, collect_node files, collect_go files, collect_java_kotlin files]

/-! ## Docker artifacts (core.py:107-147, 668-694) -/

/-- `lstrip("._-")`. -/
def lstripSeps (s : String) : String :=
  ⟨s.data.dropWhile (fun c => c == '.' || c == '_' || c == '-')⟩

/-- The `DockerfileInfo` built for one matched path (core.py:122-145). -/
def mk_dockerfile_info (parts : List String) : DockerfileInfo :=
  let nm := parts.getLastD ""
  let ctxParts := parts.dropLast
  let context_str := if ctxParts.isEmpty then "." else joinPath ctxParts
  let ctxName := ctxParts.getLastD ""
  let name :=
    if nm == "Dockerfile" then (if ctxName == "" then "app" else ctxName)
    else
      let base := if pyStarts nm "Dockerfile" then pyDropStr nm 10 else nm
      let base := lstripSeps base
      if base != "" then base
      else if ctxName != "" then ctxName
      else "app"
  { path := joinPath parts, context := context_str, name := name }

/-- `_detect_dockerfiles` (core.py:107-147): `rglob("Dockerfile*")` —
case-sensitive name match over the whole tree (`rglob` does not prune
`IGNORED_DIRS`), skipping only paths with a `.git` segment. -/
def detect_dockerfiles (files : List SrcFile) : List DockerfileInfo :=
  (files.filter (fun f =>
      pyStarts (file_name f) "Dockerfile" && !(f.parts.contains ".git"))).map
    (fun f => mk_dockerfile_info f.parts)

/-- `_detect_deploy_artifacts` (core.py:668-694): flags over the pruned
walk, lowercased names; the k8s check looks for a `k8s`/`kubernetes`/
`manifests` path segment (the repository-relative segments here). -/
def detect_deploy_artifacts (files : List SrcFile) : Bool × Bool × Bool :=
  (iter_files files).foldl
    (fun (acc : Bool × Bool × Bool) f =>
      let nm := pyLower (file_name f)
      ( acc.1 || (nm == "dockerfile" || pyStarts nm "dockerfile."),
        acc.2.1 || (nm == "docker-compose.yml" || nm == "docker-compose.yaml"),
        acc.2.2 || ((pyEnds nm ".yml" || pyEnds nm ".yaml")
          && f.parts.any (fun part => part == "k8s" || part == "kubernetes" || part == "manifests")) ))
    (false, false, false)

/-! ## Stack aggregation (`analyze_stack`, core.py:697-784) -/

/-- `ECO_PMS` (core.py:730-735). -/
def ECO_PMS : List (String × List String) :=
  [("python", ["pip", "poetry", "pipenv"]),
   ("javascript", ["npm", "yarn", "pnpm"]),
   ("java", ["maven", "gradle"]),
   ("go", ["go-mod"])]

/-- The noise-filter warning for a dropped language (core.py:746-749). -/
def noise_warn_text (lang : String) : String :=
  "Обнаружен единичный файл языка " ++ lang ++
    " без конфигурации зависимостей — считаем его вспомогательным и не включаем в основной стек."

/-- The drop condition of the noise filter (core.py:737-745): the language
has a known package-manager family, its file count is ≤ 1 and none of the
family's managers was detected. -/
def lang_dropped (counts : List (String × Nat)) (pms : List String) (lang : String) : Bool :=
  match alookup ECO_PMS lang with
  | none => false
  | some fam =>
    ((alookup counts lang).getD 0 ≤ 1) && !(pms.any (fun pm => fam.contains pm))

/-- Warning when no language survives (core.py:776-782). -/
def no_language_warn_text : String :=
  "Не удалось идентифицировать основной язык проекта. Пайплайн будет построен по умолчаниям."

/-- `analyze_stack` body for an existing root (core.py:713-784).  The
removal loop iterates over a copy of the (sorted, duplicate-free) language
list, so it is a filter; its warnings are emitted in iteration order. -/
def analyze_files (files : List SrcFile) : StackInfo × List String :=
  let counts := detect_language_counts files
  let languages := pySortStr (counts.map Prod.fst)
  let package_managers := detect_package_managers files
  let frameworks := detect_frameworks files
  let das := detect_deploy_artifacts files
  let dv := detect_dependencies_and_versions files
  let filtered_languages := languages.filter (fun lang => !(lang_dropped counts package_managers lang))
  let noise_warns := (languages.filter (fun lang => lang_dropped counts package_managers lang)).map noise_warn_text
  let frameworks_all := pySortStr (pyDedup (frameworks ++ dv.framework_versions.map Prod.fst))
  let stack : StackInfo :=
    { languages := pySortStr filtered_languages,
      frameworks := frameworks_all,
      package_managers := package_managers,
      has_dockerfile := das.1,
      has_docker_compose := das.2.1,
      has_k8s_manifests := das.2.2,
      dependencies := dv.dependencies,
      language_versions := dv.language_versions,
      framework_versions := dv.framework_versions,
      dockerfiles := detect_dockerfiles files }
  (stack, noise_warns ++ (if filtered_languages.isEmpty then [no_language_warn_text] else []))

/-- Warning for a missing repository path (core.py:707-711). -/
def path_missing_warn_text : String :=
  "Путь к репозиторию не существует, анализ невозможен."

/-- `analyze_stack` (core.py:697-784): a missing root returns the default
`StackInfo` plus a warning, otherwise `analyze_files`. -/
def analyze_stack (root : Option (List SrcFile)) : StackInfo × List String :=
  match root with
  | none => ({}, [path_missing_warn_text])
  | some files => analyze_files files


/-! ## Named constants and concrete inputs used by the verification -/

/-- Every job name `build_pipeline` can emit outside the docker fan-out. -/
def fixed_job_names : List String :=
  ["python_tests", "python_lint", "node_lint", "node_tests", "node_build",
   "go_tests", "go_build", "java_tests", "java_build", "java_sonar", "node_sonar",
   "docker_build", "deploy_placeholder"]

/-- The job names of the non-docker segments of `build_pipeline` as a
function of the ecosystem flags python, node, go, java-with-maven. -/
def fixed_names_for (p n g jm : Bool) : List String :=
  (if p then ["python_tests", "python_lint"] else [])
    ++ (if n then ["node_lint", "node_tests", "node_build"] else [])
    ++ (if g then ["go_tests", "go_build"] else [])
    ++ (if jm then ["java_tests", "java_build"] else [])
    ++ ((if jm then ["java_sonar"] else []) ++ (if n then ["node_sonar"] else []))

/-- The lowercased manifest names `_group_project_files` recognizes. -/
def recognized_manifest_names : List String :=
  ["requirements.txt", "pyproject.toml", "pipfile", "package.json", "pom.xml",
   "build.gradle", "build.gradle.kts", "go.mod", "tsconfig.json"]

/-- The four tracked language identifiers (the values of `EXT_TO_LANGUAGE`). -/
def tracked_languages : List String := ["python", "javascript", "java", "go"]

/-- A tree with two Python source files and no manifests. -/
def tree_two_py : List SrcFile := [⟨["a.py"], ""⟩, ⟨["b.py"], ""⟩]

/-- A tree with a single Go file and no `go.mod`. -/
def tree_one_go : List SrcFile := [⟨["main.go"], "package main"⟩]

/-- Two Dockerfiles in directories with the same basename. -/
def tree_same_name_dockerfiles : List SrcFile :=
  [⟨["services", "api", "Dockerfile"], ""⟩, ⟨["apps", "api", "Dockerfile"], ""⟩]

/-- A root Dockerfile plus `services/api/Dockerfile`. -/
def tree_two_dockerfiles : List SrcFile :=
  [⟨["Dockerfile"], "FROM alpine"⟩, ⟨["services", "api", "Dockerfile"], ""⟩]

/-- A tree whose only Docker file is the lowercase `dockerfile`. -/
def tree_lowercase_dockerfile : List SrcFile := [⟨["dockerfile"], ""⟩]

/-- A tree whose only Dockerfile sits under `node_modules`. -/
def tree_node_modules_dockerfile : List SrcFile := [⟨["node_modules", "Dockerfile"], ""⟩]

/-- A requirements file pinning `flask==1.0`, under directory `a`. -/
def req_file_a : SrcFile := ⟨["a", "requirements.txt"], "flask==1.0"⟩

/-- A requirements file pinning `flask==2.0`, under directory `b`. -/
def req_file_b : SrcFile := ⟨["b", "requirements.txt"], "flask==2.0"⟩

/-- A stack with the java language but only the gradle package manager. -/
def stack_java_gradle : StackInfo := { languages := ["java"], package_managers := ["gradle"] }

/-- A stack with python and go sources (registered stage set
lint/test/build/deploy). -/
def stack_python_go : StackInfo := { languages := ["go", "python"] }

/-- A hypothetical earlier collector output carrying `python → a → 1`. -/
def collider_first : CollectorOut := { dependencies := [("python", [("a", "1")])] }

/-- A hypothetical later collector output carrying `python → a → 2`. -/
def collider_second : CollectorOut := { dependencies := [("python", [("a", "2")])] }

/-- An earlier collector output with versions python→3.11, flask→1.0. -/
def version_first : CollectorOut :=
  { language_versions := [("python", "3.11")], framework_versions := [("flask", "1.0")] }

/-! ## Generic lemmas about the embedded dict/set/sort operations -/

theorem alookup_nil {α : Type} (k : String) : alookup ([] : List (String × α)) k = none := rfl

theorem alookup_cons {α : Type} (x : String) (y : α) (t : List (String × α)) (k : String) :
    alookup ((x, y) :: t) k = if x == k then some y else alookup t k := rfl

theorem alookup_append {α : Type} (a b : List (String × α)) (k : String) :
    alookup (a ++ b) k =
      match alookup a k with
      | some v => some v
      | none => alookup b k := by
  induction a with
  | nil => rfl
  | cons p t ih =>
    obtain ⟨x, y⟩ := p
    rw [List.cons_append, alookup_cons, alookup_cons]
    by_cases h : x == k
    · simp [h]
    · simp only [h, Bool.false_eq_true, if_false, ih]

theorem alookup_mapset_ne {α : Type} (m : List (String × α)) (k : String) (v : α)
    (k' : String) (hne : k' ≠ k) :
    alookup (m.map (fun p => if p.1 == k then (p.1, v) else p)) k' = alookup m k' := by
  induction m with
  | nil => rfl
  | cons p t ih =>
    obtain ⟨x, y⟩ := p
    rw [List.map_cons]
    by_cases h : x == k
    · have hx : x = k := by simpa using h
      have hxk : (x == k') = false := by
        apply beq_eq_false_iff_ne.mpr
        rw [hx]
        exact fun hk => hne hk.symm
      rw [show (if ((x, y).1 == k) = true then ((x, y).1, v) else (x, y)) = (x, v) from by
        rw [if_pos h]]
      rw [alookup_cons, alookup_cons, hxk]
      simp only [Bool.false_eq_true, if_false]
      exact ih
    · rw [show (if ((x, y).1 == k) = true then ((x, y).1, v) else (x, y)) = (x, y) from by
        rw [if_neg h]]
      rw [alookup_cons, alookup_cons]
      by_cases h2 : x == k'
      · rw [if_pos h2, if_pos h2]
      · rw [if_neg h2, if_neg h2]
        exact ih

theorem alookup_mapset_self {α : Type} (m : List (String × α)) (k : String) (v : α) :
    alookup (m.map (fun p => if p.1 == k then (p.1, v) else p)) k =
      if akey m k then some v else none := by
  induction m with
  | nil => rfl
  | cons p t ih =>
    obtain ⟨x, y⟩ := p
    rw [List.map_cons]
    by_cases h : x == k
    · rw [show (if ((x, y).1 == k) = true then ((x, y).1, v) else (x, y)) = (x, v) from by
        rw [if_pos h]]
      rw [alookup_cons, if_pos h]
      have hk : akey ((x, y) :: t) k = true := by
        unfold akey
        rw [alookup_cons, if_pos h]
        rfl
      rw [hk]
      rfl
    · rw [show (if ((x, y).1 == k) = true then ((x, y).1, v) else (x, y)) = (x, y) from by
        rw [if_neg h]]
      rw [alookup_cons, if_neg h, ih]
      have hk : akey ((x, y) :: t) k = akey t k := by
        unfold akey
        rw [alookup_cons, if_neg h]
      rw [hk]

theorem alookup_aset_self {α : Type} (m : List (String × α)) (k : String) (v : α) :
    alookup (aset m k v) k = some v := by
  unfold aset
  by_cases h : akey m k
  · rw [if_pos h, alookup_mapset_self, if_pos h]
  · rw [if_neg h, alookup_append]
    have hl : alookup m k = none := by
      cases hx : alookup m k with
      | some v0 => exact absurd (by unfold akey; rw [hx]; rfl) h
      | none => rfl
    rw [hl]
    show alookup [(k, v)] k = some v
    rw [alookup_cons, if_pos (beq_self_eq_true k)]

theorem alookup_aset_ne {α : Type} (m : List (String × α)) (k : String) (v : α)
    (k' : String) (hne : k' ≠ k) :
    alookup (aset m k v) k' = alookup m k' := by
  unfold aset
  by_cases h : akey m k
  · rw [if_pos h]
    exact alookup_mapset_ne m k v k' hne
  · rw [if_neg h, alookup_append]
    have hk : (k == k') = false := by
      apply beq_eq_false_iff_ne.mpr
      exact fun hkk => hne hkk.symm
    cases hl : alookup m k' with
    | some v0 => rfl
    | none =>
      show alookup [(k, v)] k' = none
      rw [alookup_cons, if_neg (by rw [hk]; exact Bool.false_ne_true)]
      rfl

theorem alookup_ainsertNew {α : Type} (m : List (String × α)) (k : String) (v : α)
    (k' : String) :
    alookup (ainsertNew m k v) k' =
      match alookup m k' with
      | some w => some w
      | none => if k == k' then some v else none := by
  unfold ainsertNew
  by_cases h : akey m k
  · rw [if_pos h]
    cases hl : alookup m k' with
    | some w => rfl
    | none =>
      by_cases he : k == k'
      · have hkk : k = k' := by simpa using he
        subst hkk
        unfold akey at h
        rw [hl] at h
        simp at h
      · show none = if (k == k') = true then some v else none
        rw [if_neg he]
  · rw [if_neg h, alookup_append]
    cases hl : alookup m k' with
    | some w => rfl
    | none =>
      show alookup [(k, v)] k' = if (k == k') = true then some v else none
      rw [alookup_cons]
      by_cases he : k == k'
      · rw [if_pos he, if_pos he]
      · rw [if_neg he, if_neg he]
        rfl

/-- Lookup after the first-wins fold (`if k not in d: d[k] = v` over the
entries of a second dict): existing entries win, otherwise the first
occurrence of the key in the folded entries. -/
theorem alookup_insNew_fold {α : Type} (entries : List (String × α))
    (m : List (String × α)) (k : String) :
    alookup (entries.foldl (fun m q => ainsertNew m q.1 q.2) m) k =
      match alookup m k with
      | some v => some v
      | none => alookup entries k := by
  induction entries generalizing m with
  | nil =>
    rw [List.foldl_nil]
    cases hl : alookup m k <;> rfl
  | cons q t ih =>
    obtain ⟨a, b⟩ := q
    rw [List.foldl_cons, ih, alookup_ainsertNew]
    cases hl : alookup m k with
    | some w => rfl
    | none =>
      show (match (if (a == k) = true then some b else none : Option α) with
            | some v => some v
            | none => alookup t k) = alookup ((a, b) :: t) k
      rw [alookup_cons]
      by_cases he : a == k
      · rw [if_pos he, if_pos he]
      · rw [if_neg he, if_neg he]

/-- Lookup after the assignment fold (`d[k] = v` over the entries of a
second dict): the last occurrence in the folded entries wins, otherwise the
base dict. -/
theorem alookup_aset_fold {α : Type} (entries : List (String × α))
    (m : List (String × α)) (k : String) :
    alookup (entries.foldl (fun d q => aset d q.1 q.2) m) k =
      match alookupLast entries k with
      | some v => some v
      | none => alookup m k := by
  induction entries generalizing m with
  | nil => cases hl : alookup m k <;> simp [alookupLast, alookup_nil, hl]
  | cons q t ih =>
    obtain ⟨a, b⟩ := q
    rw [List.foldl_cons, ih]
    have hrev : alookupLast ((a, b) :: t) k =
        match alookupLast t k with
        | some v => some v
        | none => if a == k then some b else none := by
      unfold alookupLast
      rw [List.reverse_cons, alookup_append]
      cases hl : alookup t.reverse k with
      | some w => rfl
      | none =>
        show alookup [(a, b)] k = if (a == k) = true then some b else none
        rw [alookup_cons]
        by_cases he : a == k
        · rw [if_pos he, if_pos he]
        · rw [if_neg he, if_neg he]
          rfl
    rw [hrev]
    cases hl : alookupLast t k with
    | some w => rfl
    | none =>
      by_cases he : a == k
      · have hak : a = k := by simpa using he
        subst hak
        rw [if_pos he]
        exact alookup_aset_self m a b
      · have hne2 : k ≠ a := fun hk => by simp [hk] at he
        rw [if_neg he]
        exact alookup_aset_ne m a b k hne2

theorem akey_iff_mem_map_fst {α : Type} (m : List (String × α)) (k : String) :
    akey m k = true ↔ k ∈ m.map Prod.fst := by
  induction m with
  | nil => simp [akey, alookup]
  | cons p t ih =>
    obtain ⟨x, y⟩ := p
    by_cases h : x == k
    · have hx : x = k := by simpa using h
      simp [akey, alookup_cons, h, hx]
    · have hx : ¬(k = x) := fun hk => by simp [hk] at h
      unfold akey at ih ⊢
      rw [alookup_cons]
      simp only [h, Bool.false_eq_true, if_false, List.map_cons, List.mem_cons]
      rw [ih]
      constructor
      · exact Or.inr
      · rintro (hk | hk)
        · exact absurd hk hx
        · exact hk

/-- Membership through `pySortStr` (insertion sort permutes). -/
theorem mem_pySortStr (l : List String) (x : String) : x ∈ pySortStr l ↔ x ∈ l :=
  (List.perm_insertionSort pyLe l).mem_iff

/-- `pySortStr` sorts w.r.t. the Python string order. -/
theorem sorted_pySortStr (l : List String) : List.Sorted pyLe (pySortStr l) :=
  List.sorted_insertionSort pyLe l

theorem pyDedup_go_mem (l : List String) :
    ∀ (acc : List String) (x : String),
      x ∈ l.foldl (fun acc x => if x ∈ acc then acc else acc ++ [x]) acc ↔ x ∈ acc ∨ x ∈ l := by
  induction l with
  | nil => simp
  | cons a t ih =>
    intro acc x
    rw [List.foldl_cons]
    by_cases h : a ∈ acc
    · rw [if_pos h, ih]
      constructor
      · rintro (hx | hx)
        · exact Or.inl hx
        · exact Or.inr (List.mem_cons_of_mem _ hx)
      · rintro (hx | hx)
        · exact Or.inl hx
        · rcases List.mem_cons.mp hx with rfl | hx
          · exact Or.inl h
          · exact Or.inr hx
    · rw [if_neg h, ih]
      constructor
      · rintro (hx | hx)
        · rcases List.mem_append.mp hx with hx | hx
          · exact Or.inl hx
          · simp at hx
            exact Or.inr (by simp [hx])
        · exact Or.inr (List.mem_cons_of_mem _ hx)
      · rintro (hx | hx)
        · exact Or.inl (List.mem_append.mpr (Or.inl hx))
        · rcases List.mem_cons.mp hx with rfl | hx
          · exact Or.inl (List.mem_append.mpr (Or.inr (by simp)))
          · exact Or.inr hx

theorem pyDedup_go_nodup (l : List String) :
    ∀ acc : List String, acc.Nodup →
      (l.foldl (fun acc x => if x ∈ acc then acc else acc ++ [x]) acc).Nodup := by
  induction l with
  | nil => intro acc h; simpa using h
  | cons a t ih =>
    intro acc h
    rw [List.foldl_cons]
    by_cases ha : a ∈ acc
    · rw [if_pos ha]
      exact ih acc h
    · rw [if_neg ha]
      apply ih
      simp [List.nodup_append, h, ha]

theorem mem_pyDedup (l : List String) (x : String) : x ∈ pyDedup l ↔ x ∈ l := by
  unfold pyDedup
  rw [pyDedup_go_mem]
  simp

theorem nodup_pyDedup (l : List String) : (pyDedup l).Nodup :=
  pyDedup_go_nodup l [] List.nodup_nil

/-- The first canonicalization loop: append, in table order, the table
names present in `u`. -/
theorem canonical_loop_eq (order : List String) :
    ∀ (u acc : List String),
      order.foldl (fun acc name => if name ∈ u then acc ++ [name] else acc) acc =
        acc ++ order.filter (fun s => decide (s ∈ u)) := by
  induction order with
  | nil => simp
  | cons a t ih =>
    intro u acc
    rw [List.foldl_cons, List.filter_cons]
    by_cases h : a ∈ u
    · rw [if_pos h, ih]
      simp [h]
    · rw [if_neg h, ih]
      simp [h]

/-- The second canonicalization loop over a duplicate-free list: append the
names not already present. -/
theorem extras_loop_eq :
    ∀ (u : List String), u.Nodup → ∀ acc : List String,
      u.foldl (fun acc name => if name ∈ acc then acc else acc ++ [name]) acc =
        acc ++ u.filter (fun s => decide (s ∉ acc)) := by
  intro u
  induction u with
  | nil => simp
  | cons a t ih =>
    intro hnd acc
    rcases List.nodup_cons.mp hnd with ⟨hat, hnd'⟩
    rw [List.foldl_cons, List.filter_cons]
    by_cases h : a ∈ acc
    · rw [if_pos h, ih hnd' acc]
      simp [h]
    · rw [if_neg h, ih hnd' (acc ++ [a])]
      have heq : t.filter (fun s => decide (s ∉ acc ++ [a])) = t.filter (fun s => decide (s ∉ acc)) := by
        apply List.filter_congr
        intro x hx
        have hxa : x ≠ a := fun hk => hat (hk ▸ hx)
        simp [hxa]
      rw [heq]
      simp [h]

/-- pipeline.py:383-396 as one equation: the canonical-table names present
in the registered list, then the other registered names in
first-registration order. -/
theorem canonicalize_stages_eq (l : List String) :
    canonicalize_stages l =
      canonical_order.filter (fun s => decide (s ∈ l)) ++
        (pyDedup l).filter (fun s => decide (s ∉ canonical_order)) := by
  unfold canonicalize_stages
  by_cases hl : l.isEmpty
  · have hnil : l = [] := by cases l <;> simp_all
    subst hnil
    simp [pyDedup]
  · simp only [hl, Bool.false_eq_true, if_false]
    rw [canonical_loop_eq, extras_loop_eq (pyDedup l) (nodup_pyDedup l)]
    rw [List.nil_append]
    have h1 : canonical_order.filter (fun s => decide (s ∈ pyDedup l)) =
        canonical_order.filter (fun s => decide (s ∈ l)) := by
      apply List.filter_congr
      intro x _
      simp [mem_pyDedup]
    have h2 : (pyDedup l).filter
          (fun s => decide (s ∉ canonical_order.filter (fun s => decide (s ∈ pyDedup l)))) =
        (pyDedup l).filter (fun s => decide (s ∉ canonical_order)) := by
      apply List.filter_congr
      intro x hx
      have hiff : x ∈ canonical_order.filter (fun s => decide (s ∈ pyDedup l)) ↔ x ∈ canonical_order := by
        rw [List.mem_filter]
        simp [hx]
      simp [hiff]
    rw [h2, h1]

/-- Membership in the canonicalized stage list is membership in the
registered list. -/
theorem mem_canonicalize_stages (l : List String) (x : String) :
    x ∈ canonicalize_stages l ↔ x ∈ l := by
  rw [canonicalize_stages_eq]
  rw [List.mem_append, List.mem_filter, List.mem_filter]
  constructor
  · rintro (⟨_, h⟩ | ⟨h, _⟩)
    · simpa using h
    · exact (mem_pyDedup l x).mp h
  · intro h
    by_cases hc : x ∈ canonical_order
    · exact Or.inl ⟨hc, by simpa using h⟩
    · exact Or.inr ⟨(mem_pyDedup l x).mpr h, by simpa using hc⟩

/-- The canonicalized stage list has no duplicates. -/
theorem nodup_canonicalize_stages (l : List String) : (canonicalize_stages l).Nodup := by
  rw [canonicalize_stages_eq]
  rw [List.nodup_append]
  refine ⟨?_, ?_, ?_⟩
  · exact List.Nodup.filter _ (by decide)
  · exact List.Nodup.filter _ (nodup_pyDedup l)
  · intro x hx hx2
    rcases List.mem_filter.mp hx with ⟨hxc, _⟩
    rcases List.mem_filter.mp hx2 with ⟨_, hnc⟩
    simp at hnc
    exact hnc hxc

/-! ## Builder-side lemmas -/

theorem str_data_append (a b : String) : (a ++ b).data = a.data ++ b.data := rfl

theorem str_append_left_cancel {a b c : String} (h : a ++ b = a ++ c) : b = c := by
  apply String.ext
  have hd := congrArg String.data h
  rw [str_data_append, str_data_append] at hd
  exact List.append_cancel_left hd

theorem isPrefixOf_append_self (a s : List Char) : a.isPrefixOf (a ++ s) = true := by
  induction a with
  | nil => simp [List.isPrefixOf]
  | cons x t ih => simp [List.isPrefixOf, ih]

/-- A docker fan-out job name is never one of the fixed job names. -/
theorem docker_name_not_fixed (s nm : String) (h : nm ∈ fixed_job_names) :
    ("docker_build_" ++ s) ≠ nm := by
  intro he
  have him : ("docker_build_" : String).data.isPrefixOf nm.data = true := by
    rw [← he, str_data_append]
    exact isPrefixOf_append_self _ _
  fin_cases h <;> exact absurd him (by decide)

/-- The stage registrations reachable from each ecosystem flag. -/
theorem raw_stages_mem : ∀ p n g jm q d : Bool,
    "deploy" ∈ raw_stages p n g jm q d
    ∧ (p = true → "lint" ∈ raw_stages p n g jm q d ∧ "test" ∈ raw_stages p n g jm q d)
    ∧ (n = true → "lint" ∈ raw_stages p n g jm q d ∧ "test" ∈ raw_stages p n g jm q d
        ∧ "build" ∈ raw_stages p n g jm q d)
    ∧ (g = true → "test" ∈ raw_stages p n g jm q d ∧ "build" ∈ raw_stages p n g jm q d)
    ∧ (jm = true → "test" ∈ raw_stages p n g jm q d ∧ "build" ∈ raw_stages p n g jm q d)
    ∧ (q = true → "quality" ∈ raw_stages p n g jm q d)
    ∧ (d = true → "docker" ∈ raw_stages p n g jm q d) := by decide

/-- Registered stage names always come from the canonical table. -/
theorem raw_stages_sub : ∀ p n g jm q d : Bool,
    ∀ s ∈ raw_stages p n g jm q d, s ∈ canonical_order := by decide

/-- `fixed_names_for` facts, over all flag combinations. -/
theorem fixed_names_for_facts : ∀ p n g jm : Bool,
    (fixed_names_for p n g jm).Nodup
    ∧ (∀ x ∈ fixed_names_for p n g jm, x ∈ fixed_job_names)
    ∧ "deploy_placeholder" ∉ fixed_names_for p n g jm
    ∧ "docker_build" ∉ fixed_names_for p n g jm := by decide

theorem node_jobs_names (pm : String) :
    (node_jobs pm).map Job.name = ["node_lint", "node_tests", "node_build"] := rfl

theorem quality_jobs_names (stack : StackInfo) :
    (quality_jobs stack).map Job.name =
      (if quality_has_java stack then ["java_sonar"] else [])
        ++ (if has_node_stack stack then ["node_sonar"] else []) := by
  unfold quality_jobs
  cases hj : quality_has_java stack <;> cases hn : has_node_stack stack <;>
    simp [java_sonar_job, node_sonar_job]

/-- Every quality job has stage `quality`, and one exists only when the
quality condition holds. -/
theorem quality_jobs_stage {stack : StackInfo} {j : Job} (hj : j ∈ quality_jobs stack) :
    j.stage = "quality" ∧ (quality_has_java stack || has_node_stack stack) = true := by
  unfold quality_jobs at hj
  cases hjav : quality_has_java stack <;> cases hn : has_node_stack stack <;>
    rw [hjav, hn] at hj <;> simp at hj <;>
    (rcases hj with rfl | rfl <;> exact ⟨rfl, rfl⟩)

/-- The job names of a synthesized pipeline: the fixed segment, the docker
segment, the deploy placeholder. -/
theorem build_pipeline_job_names (stack : StackInfo) :
    (build_pipeline stack).1.jobs.map Job.name =
      fixed_names_for (stack.languages.contains "python") (has_node_stack stack)
          (stack.languages.contains "go")
          (stack.languages.contains "java" && stack.package_managers.contains "maven")
        ++ (if !stack.dockerfiles.isEmpty then
              stack.dockerfiles.map (fun df => "docker_build_" ++ sanitize_name df.name)
            else if stack.has_dockerfile then ["docker_build"] else [])
        ++ ["deploy_placeholder"] := by
  unfold build_pipeline fixed_names_for
  simp only [List.map_append, apply_ite (List.map Job.name), quality_jobs_names,
    List.map_map, node_jobs_names]
  simp [Function.comp_def, mk_docker_job, List.append_assoc, python_tests_job,
    python_lint_job, go_jobs, java_jobs, generic_docker_job, deploy_job, quality_has_java]

/-- The job list of a synthesized pipeline, segment by segment (the append
order of pipeline.py:119-372). -/
theorem build_pipeline_jobs_eq (stack : StackInfo) :
    (build_pipeline stack).1.jobs =
      (if stack.languages.contains "python" then [python_tests_job, python_lint_job] else [])
        ++ (if has_node_stack stack then node_jobs (node_pm stack) else [])
        ++ (if stack.languages.contains "go" then go_jobs else [])
        ++ (if stack.languages.contains "java" && stack.package_managers.contains "maven"
            then java_jobs else [])
        ++ quality_jobs stack
        ++ (if !stack.dockerfiles.isEmpty then stack.dockerfiles.map mk_docker_job
            else if stack.has_dockerfile then [generic_docker_job] else [])
        ++ [deploy_job] := rfl

/-- Every job's stage is a member of the canonicalized stage sequence. -/
theorem build_pipeline_stage_mem (stack : StackInfo) :
    ∀ j ∈ (build_pipeline stack).1.jobs, j.stage ∈ (build_pipeline stack).1.stages := by
  intro j hj
  have hstages : (build_pipeline stack).1.stages =
      canonicalize_stages (registered_stages stack) := rfl
  rw [hstages, mem_canonicalize_stages]
  unfold registered_stages
  have hmem := raw_stages_mem (stack.languages.contains "python") (has_node_stack stack)
    (stack.languages.contains "go")
    (stack.languages.contains "java" && stack.package_managers.contains "maven")
    (quality_has_java stack || has_node_stack stack)
    (!stack.dockerfiles.isEmpty || stack.has_dockerfile)
  rw [build_pipeline_jobs_eq] at hj
  simp only [List.mem_append] at hj
  rcases hj with ((((((hj | hj) | hj) | hj) | hj) | hj) | hj)
  · by_cases hb : stack.languages.contains "python"
    · rw [if_pos hb] at hj
      simp only [List.mem_cons, List.not_mem_nil, or_false] at hj
      rcases hj with rfl | rfl
      · exact (hmem.2.1 hb).2
      · exact (hmem.2.1 hb).1
    · rw [if_neg hb] at hj
      exact absurd hj (List.not_mem_nil _)
  · by_cases hb : has_node_stack stack
    · rw [if_pos hb] at hj
      unfold node_jobs at hj
      simp only [List.mem_cons, List.not_mem_nil, or_false] at hj
      rcases hj with rfl | rfl | rfl
      · exact (hmem.2.2.1 hb).1
      · exact (hmem.2.2.1 hb).2.1
      · exact (hmem.2.2.1 hb).2.2
    · rw [if_neg hb] at hj
      exact absurd hj (List.not_mem_nil _)
  · by_cases hb : stack.languages.contains "go"
    · rw [if_pos hb] at hj
      unfold go_jobs at hj
      simp only [List.mem_cons, List.not_mem_nil, or_false] at hj
      rcases hj with rfl | rfl
      · exact (hmem.2.2.2.1 hb).1
      · exact (hmem.2.2.2.1 hb).2
    · rw [if_neg hb] at hj
      exact absurd hj (List.not_mem_nil _)
  · by_cases hb : stack.languages.contains "java" && stack.package_managers.contains "maven"
    · rw [if_pos hb] at hj
      unfold java_jobs at hj
      simp only [List.mem_cons, List.not_mem_nil, or_false] at hj
      rcases hj with rfl | rfl
      · exact (hmem.2.2.2.2.1 hb).1
      · exact (hmem.2.2.2.2.1 hb).2
    · rw [if_neg hb] at hj
      exact absurd hj (List.not_mem_nil _)
  · rcases quality_jobs_stage hj with ⟨hstage, hq⟩
    rw [hstage]
    exact hmem.2.2.2.2.2.1 hq
  · by_cases hb : !stack.dockerfiles.isEmpty
    · rw [if_pos hb] at hj
      rcases List.mem_map.mp hj with ⟨df, _, rfl⟩
      exact hmem.2.2.2.2.2.2 (by rw [hb]; rfl)
    · rw [if_neg hb] at hj
      by_cases hd : stack.has_dockerfile
      · rw [if_pos hd] at hj
        simp only [List.mem_cons, List.not_mem_nil, or_false] at hj
        subst hj
        refine hmem.2.2.2.2.2.2 ?_
        have hb' : (!stack.dockerfiles.isEmpty) = false := by
          cases hx : !stack.dockerfiles.isEmpty
          · rfl
          · exact absurd hx hb
        rw [hb', hd]
        rfl
      · rw [if_neg hd] at hj
        exact absurd hj (List.not_mem_nil _)
  · simp only [List.mem_cons, List.not_mem_nil, or_false] at hj
    subst hj
    exact hmem.1

/-- The docker-stage jobs of a synthesized pipeline: one per artifact in
the fan-out, the single generic job in the fallback. -/
theorem build_pipeline_docker_jobs (stack : StackInfo) :
    (build_pipeline stack).1.jobs.filter (fun j => j.stage == "docker") =
      (if !stack.dockerfiles.isEmpty then stack.dockerfiles.map mk_docker_job
       else if stack.has_dockerfile then [generic_docker_job] else []) := by
  rw [build_pipeline_jobs_eq]
  simp only [List.filter_append, apply_ite (List.filter (fun j : Job => j.stage == "docker"))]
  have hq : (quality_jobs stack).filter (fun j : Job => j.stage == "docker") = [] := by
    rw [List.filter_eq_nil_iff]
    intro j hj
    rw [(quality_jobs_stage hj).1]
    decide
  have hmap : (stack.dockerfiles.map mk_docker_job).filter
      (fun j : Job => j.stage == "docker") = stack.dockerfiles.map mk_docker_job := by
    rw [List.filter_eq_self]
    intro j hj
    rcases List.mem_map.mp hj with ⟨df, _, rfl⟩
    rfl
  rw [hq, hmap]
  simp [node_jobs, python_tests_job, python_lint_job, go_jobs, java_jobs,
    generic_docker_job, deploy_job]

/-- The deploy-stage jobs of a synthesized pipeline: exactly the
placeholder. -/
theorem build_pipeline_deploy_jobs (stack : StackInfo) :
    (build_pipeline stack).1.jobs.filter (fun j => j.stage == "deploy") = [deploy_job] := by
  rw [build_pipeline_jobs_eq]
  simp only [List.filter_append, apply_ite (List.filter (fun j : Job => j.stage == "deploy"))]
  have hq : (quality_jobs stack).filter (fun j : Job => j.stage == "deploy") = [] := by
    rw [List.filter_eq_nil_iff]
    intro j hj
    rw [(quality_jobs_stage hj).1]
    decide
  have hmap : (stack.dockerfiles.map mk_docker_job).filter
      (fun j : Job => j.stage == "deploy") = [] := by
    rw [List.filter_eq_nil_iff]
    intro j hj
    rcases List.mem_map.mp hj with ⟨df, _, rfl⟩
    show ¬(("docker" : String) == "deploy") = true
    decide
  rw [hq, hmap]
  simp [node_jobs, python_tests_job, python_lint_job, go_jobs, java_jobs,
    generic_docker_job, deploy_job]

/-- MOVE-TO-DEFS: A later collector output with versions python→3.12, flask→2.0. -/
def version_second : CollectorOut :=
  { language_versions := [("python", "3.12")], framework_versions := [("flask", "2.0")] }

/-! ## Helpers shared by several claims -/

theorem fixed_names_java : ∀ p n g jm : Bool,
    (("java_tests" ∈ fixed_names_for p n g jm ∨ "java_build" ∈ fixed_names_for p n g jm
      ∨ "java_sonar" ∈ fixed_names_for p n g jm) ↔ jm = true) := by decide

/-- Strings that are neither prefixed `docker_build_` nor `docker_build`
never occur in the docker job segment. -/
theorem docker_segment_not_mem (stack : StackInfo) (x : String)
    (h1 : ("docker_build_" : String).data.isPrefixOf x.data = false)
    (h2 : x ≠ "docker_build") :
    x ∉ (if !stack.dockerfiles.isEmpty then
          stack.dockerfiles.map (fun df => "docker_build_" ++ sanitize_name df.name)
         else if stack.has_dockerfile then ["docker_build"] else []) := by
  intro hmem
  by_cases hb : !stack.dockerfiles.isEmpty
  · rw [if_pos hb] at hmem
    rcases List.mem_map.mp hmem with ⟨df, _, heq⟩
    have : ("docker_build_" : String).data.isPrefixOf x.data = true := by
      rw [← heq, str_data_append]
      exact isPrefixOf_append_self _ _
    rw [h1] at this
    exact Bool.false_ne_true this
  · rw [if_neg hb] at hmem
    by_cases hd : stack.has_dockerfile
    · rw [if_pos hd] at hmem
      simp only [List.mem_cons, List.not_mem_nil, or_false] at hmem
      exact h2 hmem
    · rw [if_neg hd] at hmem
      exact absurd hmem (List.not_mem_nil _)

theorem fixed_names_for_docker_free : ∀ p n g jm : Bool,
    ∀ x ∈ fixed_names_for p n g jm,
      ("docker_build_" : String).data.isPrefixOf x.data = false
      ∧ x ≠ "docker_build" ∧ x ≠ "deploy_placeholder" := by decide

/-- The warnings of a synthesized pipeline, segment by segment
(pipeline.py:92-95, 329-360, 374-379). -/
theorem build_pipeline_warns_eq (stack : StackInfo) :
    (build_pipeline stack).2 =
      quality_warns stack
        ++ (if !stack.dockerfiles.isEmpty then [docker_fanout_warn_text]
            else if stack.has_dockerfile then [docker_fallback_warn_text] else [])
        ++ (if !(stack.languages.contains "python" || has_node_stack stack
              || stack.languages.contains "go" || stack.languages.contains "java")
            then [placeholder_warn_text] else []) := rfl

/-! ## C1 — canonical stage order -/

/-- C1: the synthesized stage sequence has no duplicates; it lists the
registered stage names in the fixed precedence lint, test, quality, build,
docker, deploy (filtered to those present) followed by any non-table name
in first-registration order; and any input registering exactly the stage
set {build, lint, deploy, test} yields ["lint", "test", "build", "deploy"]. -/
theorem claim1_canonical_stage_order (stack : StackInfo) :
    (build_pipeline stack).1.stages.Nodup
    ∧ (build_pipeline stack).1.stages =
        canonical_order.filter (fun s => decide (s ∈ registered_stages stack))
          ++ (pyDedup (registered_stages stack)).filter (fun s => decide (s ∉ canonical_order))
    ∧ ((∀ s, s ∈ registered_stages stack ↔ s ∈ ["build", "lint", "deploy", "test"]) →
        (build_pipeline stack).1.stages = ["lint", "test", "build", "deploy"]) := by
  have hstages : (build_pipeline stack).1.stages =
      canonicalize_stages (registered_stages stack) := rfl
  refine ⟨?_, ?_, ?_⟩
  · rw [hstages]
    exact nodup_canonicalize_stages _
  · rw [hstages]
    exact canonicalize_stages_eq _
  · intro h
    rw [hstages, canonicalize_stages_eq]
    have hextras : (pyDedup (registered_stages stack)).filter
        (fun s => decide (s ∉ canonical_order)) = [] := by
      rw [List.filter_eq_nil_iff]
      intro x hx
      have hx3 := (h x).mp ((mem_pyDedup _ _).mp hx)
      fin_cases hx3 <;> decide
    rw [hextras, List.append_nil]
    have hfilter : canonical_order.filter (fun s => decide (s ∈ registered_stages stack)) =
        canonical_order.filter (fun s => decide (s ∈ ["build", "lint", "deploy", "test"])) := by
      apply List.filter_congr
      intro x _
      simp [h x]
    rw [hfilter]
    decide

/-- C1 witness: a python+go stack registers exactly
{build, lint, deploy, test} and gets ["lint", "test", "build", "deploy"]. -/
theorem claim1_canonical_stage_order_witness :
    (∀ s, s ∈ registered_stages stack_python_go ↔ s ∈ ["build", "lint", "deploy", "test"])
    ∧ (build_pipeline stack_python_go).1.stages = ["lint", "test", "build", "deploy"] := by
  have hreg : registered_stages stack_python_go = ["lint", "test", "build", "deploy"] := by decide
  have hyp : ∀ s, s ∈ registered_stages stack_python_go ↔ s ∈ ["build", "lint", "deploy", "test"] := by
    intro s
    rw [hreg]
    simp only [List.mem_cons, List.not_mem_nil, or_false]
    tauto
  exact ⟨hyp, (claim1_canonical_stage_order stack_python_go).2.2 hyp⟩

/-! ## C2 — job/stage invariants -/

/-- C2 counterexample: a tree with `services/api/Dockerfile` and
`apps/api/Dockerfile` (same logical name `api`) synthesizes two jobs both
named `docker_build_api`, so job names are not always pairwise distinct. -/
theorem claim2_job_names_counterexample :
    ¬ ((build_pipeline (analyze_files tree_same_name_dockerfiles).1).1.jobs.map Job.name).Nodup := by
  decide

/-- C2 (amended): every job's stage is in the stages sequence; job names
are pairwise distinct whenever the sanitized logical names of the docker
artifacts are pairwise distinct (in particular whenever there is at most
one artifact). -/
theorem claim2_stage_membership_and_names (stack : StackInfo) :
    (∀ j ∈ (build_pipeline stack).1.jobs, j.stage ∈ (build_pipeline stack).1.stages)
    ∧ ((stack.dockerfiles.map (fun df => sanitize_name df.name)).Nodup →
        ((build_pipeline stack).1.jobs.map Job.name).Nodup) := by
  refine ⟨build_pipeline_stage_mem stack, ?_⟩
  intro hs
  rw [build_pipeline_job_names]
  have facts := fixed_names_for_facts (stack.languages.contains "python") (has_node_stack stack)
    (stack.languages.contains "go")
    (stack.languages.contains "java" && stack.package_managers.contains "maven")
  have dfree := fixed_names_for_docker_free (stack.languages.contains "python")
    (has_node_stack stack) (stack.languages.contains "go")
    (stack.languages.contains "java" && stack.package_managers.contains "maven")
  rw [List.nodup_append]
  refine ⟨?_, List.nodup_singleton _, ?_⟩
  · rw [List.nodup_append]
    refine ⟨facts.1, ?_, ?_⟩
    · by_cases hb : !stack.dockerfiles.isEmpty
      · rw [if_pos hb]
        have hmap : stack.dockerfiles.map (fun df => "docker_build_" ++ sanitize_name df.name) =
            (stack.dockerfiles.map (fun df => sanitize_name df.name)).map
              (fun s => "docker_build_" ++ s) := by
          rw [List.map_map]
          rfl
        rw [hmap]
        exact List.Nodup.map (fun a b h => str_append_left_cancel h) hs
      · rw [if_neg hb]
        by_cases hd : stack.has_dockerfile
        · rw [if_pos hd]
          exact List.nodup_singleton _
        · rw [if_neg hd]
          exact List.nodup_nil
    · intro x hxF hxD
      exact docker_segment_not_mem stack x (dfree x hxF).1 (dfree x hxF).2.1 hxD
  · intro x hx hx2
    simp only [List.mem_cons, List.not_mem_nil, or_false] at hx2
    subst hx2
    rcases List.mem_append.mp hx with hxF | hxD
    · exact (dfree _ hxF).2.2 rfl
    · exact docker_segment_not_mem stack "deploy_placeholder" (by decide) (by decide) hxD

/-- C2 witness: a concrete stack with distinct sanitized docker names. -/
theorem claim2_stage_membership_and_names_witness :
    (deploy_job ∈ (build_pipeline stack_python_go).1.jobs
      ∧ deploy_job.stage ∈ (build_pipeline stack_python_go).1.stages)
    ∧ ((stack_python_go.dockerfiles.map (fun df => sanitize_name df.name)).Nodup
      ∧ ((build_pipeline stack_python_go).1.jobs.map Job.name).Nodup) :=
  ⟨⟨by decide, (claim2_stage_membership_and_names stack_python_go).1 deploy_job (by decide)⟩,
   by decide, (claim2_stage_membership_and_names stack_python_go).2 (by decide)⟩

/-! ## C3 — determinism / ordering -/

/-- C3 counterexample: two requirements files with conflicting `flask`
pins; reversing the enumeration order changes the analyzed stack (the
first-seen pin wins), so the result is not traversal-order independent. -/
theorem claim3_order_dependence_counterexample :
    (analyze_files [req_file_a, req_file_b]).1 ≠ (analyze_files [req_file_b, req_file_a]).1 := by
  decide

/-- C3 (amended): the analysis is a pure function of the enumerated tree
(running it twice yields identical values), and the set-valued fields
languages, frameworks and packageManagers are sorted before exposure; but
the result can depend on the enumeration order (see the counterexample). -/
theorem claim3_sorted_set_fields (files : List SrcFile) :
    List.Sorted pyLe (analyze_files files).1.languages
    ∧ List.Sorted pyLe (analyze_files files).1.frameworks
    ∧ List.Sorted pyLe (analyze_files files).1.package_managers :=
  ⟨sorted_pySortStr _, sorted_pySortStr _, sorted_pySortStr _⟩

/-! ## C5 — java requires maven -/

/-- C5 counterexample: for languages={java}, packageManagers={gradle} the
pipeline has only the deploy placeholder, yet the placeholders-only warning
is NOT appended (the warning guard checks `java ∈ languages` without
maven). -/
theorem claim5_placeholder_warning_counterexample :
    (build_pipeline stack_java_gradle).1.jobs = [deploy_job]
    ∧ placeholder_warn_text ∉ (build_pipeline stack_java_gradle).2 := by
  constructor
  · decide
  · decide

/-- C5 (amended): java jobs (java_tests/java_build/java_sonar) are emitted
iff `java ∈ languages` and `maven ∈ packageManagers`; for the
java+gradle-only stack no jobs but the deploy placeholder are emitted and
no warning at all is appended (in particular not the placeholders-only
warning, since its guard tests only `java ∈ languages`). -/
theorem claim5_java_needs_maven (stack : StackInfo) :
    (("java_tests" ∈ (build_pipeline stack).1.jobs.map Job.name
      ∨ "java_build" ∈ (build_pipeline stack).1.jobs.map Job.name
      ∨ "java_sonar" ∈ (build_pipeline stack).1.jobs.map Job.name)
      ↔ (stack.languages.contains "java" && stack.package_managers.contains "maven") = true)
    ∧ (build_pipeline stack_java_gradle).1.jobs = [deploy_job]
    ∧ (build_pipeline stack_java_gradle).2 = [] := by
  refine ⟨?_, by decide, by decide⟩
  rw [build_pipeline_job_names]
  have hjava := fixed_names_java (stack.languages.contains "python") (has_node_stack stack)
    (stack.languages.contains "go")
    (stack.languages.contains "java" && stack.package_managers.contains "maven")
  constructor
  · intro h
    apply hjava.mp
    rcases h with h | h | h <;>
    · rcases List.mem_append.mp h with h2 | h2
      · rcases List.mem_append.mp h2 with h3 | h3
        · first
            | exact Or.inl h3
            | exact Or.inr (Or.inl h3)
            | exact Or.inr (Or.inr h3)
        · exact absurd h3 (docker_segment_not_mem stack _ (by decide) (by decide))
      · simp at h2
  · intro h
    rcases hjava.mpr h with h2 | h2 | h2
    · exact Or.inl (List.mem_append_left _ (List.mem_append_left _ h2))
    · exact Or.inr (Or.inl (List.mem_append_left _ (List.mem_append_left _ h2)))
    · exact Or.inr (Or.inr (List.mem_append_left _ (List.mem_append_left _ h2)))

/-! ## C6 — requirements pin rule -/

/-- C6: a `==` line always overwrites the recorded version; any other
operator records only an unset name; a file with both `flask>=1.0` and
`flask==2.0.1`, in either order, maps flask to 2.0.1. -/
theorem claim6_pin_rule (deps : List (String × String)) (rawLine line name op ver : String)
    (hline : req_effective rawLine = some line)
    (hparse : parse_req_line line = some (name, op, ver)) :
    (op = "==" → alookup (req_step deps rawLine) name = some ver)
    ∧ (op ≠ "==" → alookup (req_step deps rawLine) name =
        (if akey deps name then alookup deps name else some ver))
    ∧ alookup (parse_python_requirements_file "flask>=1.0\nflask==2.0.1") "flask" = some "2.0.1"
    ∧ alookup (parse_python_requirements_file "flask==2.0.1\nflask>=1.0") "flask" = some "2.0.1" := by
  have hstep : req_step deps rawLine =
      (if op == "==" || !(akey deps name) then aset deps name ver else deps) := by
    unfold req_step
    rw [hline]
    show (match parse_req_line line with
          | none => deps
          | some (name, op, ver) =>
            if op == "==" || !(akey deps name) then aset deps name ver else deps) = _
    rw [hparse]
  refine ⟨?_, ?_, by decide, by decide⟩
  · intro hop
    rw [hstep]
    have hcond : (op == "==" || !(akey deps name)) = true := by
      rw [hop]
      rfl
    rw [if_pos hcond]
    exact alookup_aset_self deps name ver
  · intro hop
    rw [hstep]
    have hbeq : (op == "==") = false := beq_eq_false_iff_ne.mpr hop
    by_cases hk : akey deps name
    · have hcond : (op == "==" || !(akey deps name)) = false := by
        rw [hbeq, hk]
        rfl
      rw [if_neg (by rw [hcond]; exact Bool.false_ne_true), if_pos hk]
    · have hk' : akey deps name = false := by
        cases hx : akey deps name
        · rfl
        · exact absurd hx hk
      have hcond : (op == "==" || !(akey deps name)) = true := by
        rw [hbeq, hk']
        rfl
      rw [if_pos hcond, if_neg hk]
      exact alookup_aset_self deps name ver

/-- C6 witness: the `==` overwrite applied on a dict already holding
flask→1.0. -/
theorem claim6_pin_rule_witness :
    req_effective "flask==2.0.1" = some "flask==2.0.1"
    ∧ parse_req_line "flask==2.0.1" = some ("flask", "==", "2.0.1")
    ∧ alookup (req_step [("flask", "1.0")] "flask==2.0.1") "flask" = some "2.0.1" :=
  ⟨by decide, by decide,
   (claim6_pin_rule [("flask", "1.0")] "flask==2.0.1" "flask==2.0.1" "flask" "==" "2.0.1"
      (by decide) (by decide)).1 rfl⟩

/-! ## C8 — docker fan-out and naming -/

/-- C8: one docker-stage job per discovered artifact, named
`docker_build_<name with - and . replaced by _>` with image tag
`my-image-<name>:latest`; the logical name is the parent directory's
basename for a plain `Dockerfile` (falling back to `app` at the root) or
the stripped suffix after `Dockerfile` for variants; the concrete tree
with a root Dockerfile and `services/api/Dockerfile` yields exactly two
docker-stage jobs with tags `my-image-app:latest` and
`my-image-api:latest`. -/
theorem claim8_docker_fanout (stack : StackInfo) (df : DockerfileInfo) (parts : List String) :
    (stack.dockerfiles ≠ [] →
      (build_pipeline stack).1.jobs.filter (fun j => j.stage == "docker") =
        stack.dockerfiles.map mk_docker_job)
    ∧ (mk_docker_job df).name = "docker_build_" ++ sanitize_name df.name
    ∧ (mk_docker_job df).script =
        [ "echo \"Сборка Docker-образа из существующего Dockerfile.\"",
          "docker build -f " ++ df.path ++ " " ++ (if df.context == "" then "." else df.context)
            ++ " -t " ++ image_ref_of df.name ++ " || echo 'Настройте docker daemon / registry'",
          "echo 'При необходимости замените тег " ++ image_ref_of df.name
            ++ " на адрес вашего registry.'" ]
    ∧ (parts.getLastD "" = "Dockerfile" →
        (mk_dockerfile_info parts).name =
          (if parts.dropLast.getLastD "" == "" then "app" else parts.dropLast.getLastD ""))
    ∧ (parts.getLastD "" ≠ "Dockerfile" → pyStarts (parts.getLastD "") "Dockerfile" = true →
        lstripSeps (pyDropStr (parts.getLastD "") 10) ≠ "" →
        (mk_dockerfile_info parts).name = lstripSeps (pyDropStr (parts.getLastD "") 10))
    ∧ ((build_pipeline (analyze_files tree_two_dockerfiles).1).1.jobs.filter
          (fun j => j.stage == "docker") =
        [mk_docker_job ⟨"Dockerfile", ".", "app", none⟩,
         mk_docker_job ⟨"services/api/Dockerfile", "services/api", "api", none⟩])
    ∧ image_ref_of "app" = "my-image-app:latest"
    ∧ image_ref_of "api" = "my-image-api:latest" := by
  refine ⟨?_, rfl, rfl, ?_, ?_, by decide, rfl, rfl⟩
  · intro hne
    rw [build_pipeline_docker_jobs]
    have hb : (!stack.dockerfiles.isEmpty) = true := by
      cases hx : stack.dockerfiles with
      | nil => exact absurd hx hne
      | cons a t => rfl
    rw [if_pos hb]
  · intro hnm
    have hbeq : (parts.getLastD "" == "Dockerfile") = true := by
      rw [hnm]
      rfl
    unfold mk_dockerfile_info
    dsimp only
    rw [if_pos hbeq]
  · intro hnm hpre hbase
    have hbeq : (parts.getLastD "" == "Dockerfile") = false := beq_eq_false_iff_ne.mpr hnm
    have hb2 : (lstripSeps (pyDropStr (parts.getLastD "") 10) != "") = true := by
      simpa using hbase
    unfold mk_dockerfile_info
    dsimp only
    rw [if_neg (by rw [hbeq]; exact Bool.false_ne_true), if_pos hpre, if_pos hb2]

/-- C8 witness: the fan-out equation instantiated on the two-Dockerfile
tree, the plain-Dockerfile naming at the root and a variant suffix. -/
theorem claim8_docker_fanout_witness :
    ((analyze_files tree_two_dockerfiles).1.dockerfiles ≠ []
      ∧ (build_pipeline (analyze_files tree_two_dockerfiles).1).1.jobs.filter
          (fun j => j.stage == "docker") =
        (analyze_files tree_two_dockerfiles).1.dockerfiles.map mk_docker_job)
    ∧ (["Dockerfile"].getLastD "" = "Dockerfile"
      ∧ (mk_dockerfile_info ["Dockerfile"]).name = "app")
    ∧ ((["web", "Dockerfile.ui"].getLastD "" ≠ "Dockerfile"
        ∧ pyStarts (["web", "Dockerfile.ui"].getLastD "") "Dockerfile" = true
        ∧ lstripSeps (pyDropStr (["web", "Dockerfile.ui"].getLastD "") 10) ≠ "")
      ∧ (mk_dockerfile_info ["web", "Dockerfile.ui"]).name = "ui") := by
  refine ⟨⟨by decide, (claim8_docker_fanout (analyze_files tree_two_dockerfiles).1
      ⟨"", "", "", none⟩ []).1 (by decide)⟩, ⟨by decide, ?_⟩, ⟨⟨by decide, by decide, by decide⟩, ?_⟩⟩
  · have h := (claim8_docker_fanout {} ⟨"", "", "", none⟩ ["Dockerfile"]).2.2.2.1 (by decide)
    rw [h]
    decide
  · have h := (claim8_docker_fanout {} ⟨"", "", "", none⟩ ["web", "Dockerfile.ui"]).2.2.2.2.1
      (by decide) (by decide) (by decide)
    rw [h]
    decide

/-! ## C9 — collector merge discipline -/

/-- C9 counterexample: merging two collector outputs that collide on the
dependency key (python, a) keeps the LATER collector's value ("2"), not the
earlier one — per-ecosystem dependency maps are merged with `dict.update`. -/
theorem claim9_merge_counterexample :
    (merge_collector_outputs [collider_first, collider_second]).dependencies
        = [("python", [("a", "2")])]
    ∧ (merge_collector_outputs [collider_first, collider_second]).dependencies
        ≠ [("python", [("a", "1")])] := by
  constructor
  · decide
  · decide

/-- Folding the dependency-map merge over entries whose ecosystem keys are
distinct: the entry for `eco` ends up updated over the base value. -/
theorem alookup_mergefold_other (entries : List (String × List (String × String))) :
    ∀ (dall : List (String × List (String × String))) (eco : String),
      eco ∉ entries.map Prod.fst →
      alookup (entries.foldl (fun dall p =>
          aset dall p.1 (p.2.foldl (fun d q => aset d q.1 q.2) ((alookup dall p.1).getD []))) dall)
        eco = alookup dall eco := by
  induction entries with
  | nil => intro dall eco _; rfl
  | cons p t ih =>
    intro dall eco hmem
    obtain ⟨a, b⟩ := p
    rw [List.map_cons, List.mem_cons] at hmem
    push_neg at hmem
    rw [List.foldl_cons, ih _ _ hmem.2]
    exact alookup_aset_ne dall a _ eco hmem.1

theorem alookup_mergefold (entries : List (String × List (String × String))) :
    ∀ (dall : List (String × List (String × String))) (eco : String)
      (pkgs : List (String × String)),
      (entries.map Prod.fst).Nodup → (eco, pkgs) ∈ entries →
      alookup (entries.foldl (fun dall p =>
          aset dall p.1 (p.2.foldl (fun d q => aset d q.1 q.2) ((alookup dall p.1).getD []))) dall)
        eco = some (pkgs.foldl (fun d q => aset d q.1 q.2) ((alookup dall eco).getD [])) := by
  induction entries with
  | nil => intro _ _ _ _ h; exact absurd h (List.not_mem_nil _)
  | cons p t ih =>
    intro dall eco pkgs hnd hmem
    obtain ⟨a, b⟩ := p
    rw [List.map_cons, List.nodup_cons] at hnd
    rcases List.mem_cons.mp hmem with heq | hmem2
    · have ha : eco = a := congrArg Prod.fst heq
      have hb : pkgs = b := congrArg Prod.snd heq
      subst ha
      subst hb
      rw [List.foldl_cons, alookup_mergefold_other t _ eco hnd.1]
      exact alookup_aset_self dall eco _
    · have heco : eco ∈ t.map Prod.fst :=
        List.mem_map.mpr ⟨(eco, pkgs), hmem2, rfl⟩
      have hne : eco ≠ a := fun hk => hnd.1 (hk ▸ heco)
      rw [List.foldl_cons, ih _ _ _ hnd.2 hmem2]
      rw [alookup_aset_ne dall a _ eco hne]

/-- C9 (amended): the collectors run in the fixed order python, node, go,
java/kotlin; for colliding keys in languageVersions and frameworkVersions
the earlier collector's value is kept (first-wins insert), while in the
per-ecosystem dependency maps the merge overwrites, so the LATER
collector's value survives a collision — harmless for the four real
collectors, which populate disjoint ecosystem keys. -/
theorem claim9_merge_discipline :
    (∀ files : List SrcFile,
      detect_dependencies_and_versions files =
        merge_collector_outputs
          [collect_python files, collect_node files, collect_go files, collect_java_kotlin files])
    ∧ (∀ (all o : CollectorOut) (k v : String),
        alookup all.language_versions k = some v →
        alookup (merge_step all o).language_versions k = some v)
    ∧ (∀ (all o : CollectorOut) (k : String),
        alookup all.language_versions k = none →
        alookup (merge_step all o).language_versions k = alookup o.language_versions k)
    ∧ (∀ (all o : CollectorOut) (k v : String),
        alookup all.framework_versions k = some v →
        alookup (merge_step all o).framework_versions k = some v)
    ∧ (∀ (all o : CollectorOut) (k : String),
        alookup all.framework_versions k = none →
        alookup (merge_step all o).framework_versions k = alookup o.framework_versions k)
    ∧ (∀ (all o : CollectorOut) (eco k : String) (pkgs : List (String × String)) (v : String),
        (o.dependencies.map Prod.fst).Nodup →
        (eco, pkgs) ∈ o.dependencies →
        alookupLast pkgs k = some v →
        ∃ m, alookup (merge_step all o).dependencies eco = some m ∧ alookup m k = some v) := by
  refine ⟨fun _ => rfl, ?_, ?_, ?_, ?_, ?_⟩
  · intro all o k v h
    show alookup (o.language_versions.foldl (fun m q => ainsertNew m q.1 q.2)
        all.language_versions) k = some v
    rw [alookup_insNew_fold, h]
  · intro all o k h
    show alookup (o.language_versions.foldl (fun m q => ainsertNew m q.1 q.2)
        all.language_versions) k = alookup o.language_versions k
    rw [alookup_insNew_fold, h]
  · intro all o k v h
    show alookup (o.framework_versions.foldl (fun m q => ainsertNew m q.1 q.2)
        all.framework_versions) k = some v
    rw [alookup_insNew_fold, h]
  · intro all o k h
    show alookup (o.framework_versions.foldl (fun m q => ainsertNew m q.1 q.2)
        all.framework_versions) k = alookup o.framework_versions k
    rw [alookup_insNew_fold, h]
  · intro all o eco k pkgs v hnd hmem hlast
    refine ⟨pkgs.foldl (fun d q => aset d q.1 q.2) ((alookup all.dependencies eco).getD []), ?_, ?_⟩
    · exact alookup_mergefold o.dependencies all.dependencies eco pkgs hnd hmem
    · rw [alookup_aset_fold, hlast]

/-- C9 witness: each merge-discipline clause applied at concrete collector
outputs. -/
theorem claim9_merge_discipline_witness :
    (alookup version_first.language_versions "python" = some "3.11"
      ∧ alookup (merge_step version_first version_second).language_versions "python" = some "3.11")
    ∧ (alookup version_first.framework_versions "flask" = some "1.0"
      ∧ alookup (merge_step version_first version_second).framework_versions "flask" = some "1.0")
    ∧ ((collider_second.dependencies.map Prod.fst).Nodup
      ∧ ("python", [("a", "2")]) ∈ collider_second.dependencies
      ∧ alookupLast [("a", "2")] "a" = some "2"
      ∧ ∃ m, alookup (merge_step collider_first collider_second).dependencies "python" = some m
          ∧ alookup m "a" = some "2") :=
  ⟨⟨by decide, claim9_merge_discipline.2.1 version_first version_second "python" "3.11" (by decide)⟩,
   ⟨by decide, claim9_merge_discipline.2.2.2.1 version_first version_second "flask" "1.0" (by decide)⟩,
   by decide, by decide, by decide,
   claim9_merge_discipline.2.2.2.2.2 collider_first collider_second "python" "a" [("a", "2")] "2"
     (by decide) (by decide) (by decide)⟩

/-! ## C10 — hasDockerfile vs dockerArtifacts discrepancy -/

/-- C10: the two docker scans can disagree — a lowercase `dockerfile` sets
the flag but yields no artifacts, a Dockerfile under `node_modules` yields
an artifact but not the flag; and when the flag is true with an empty
artifact list the pipeline gets the single generic `docker_build` job whose
script runs `docker build -t my-image:latest .` plus the discrepancy
warning. -/
theorem claim10_flag_artifact_divergence (stack : StackInfo) :
    ((detect_deploy_artifacts tree_lowercase_dockerfile).1 = true
      ∧ detect_dockerfiles tree_lowercase_dockerfile = [])
    ∧ ((detect_deploy_artifacts tree_node_modules_dockerfile).1 = false
      ∧ detect_dockerfiles tree_node_modules_dockerfile ≠ [])
    ∧ (stack.has_dockerfile = true → stack.dockerfiles = [] →
        ((build_pipeline stack).1.jobs.filter (fun j => j.stage == "docker")
            = [generic_docker_job]
          ∧ generic_docker_job.script.getD 1 ""
              = "docker build -t my-image:latest . || echo 'Настройте docker daemon / registry'"
          ∧ pyStarts (generic_docker_job.script.getD 1 "") "docker build -t my-image:latest ." = true
          ∧ docker_fallback_warn_text ∈ (build_pipeline stack).2)) := by
  refine ⟨⟨by decide, by decide⟩, ⟨by decide, by decide⟩, ?_⟩
  intro hflag hempty
  have hb : (!stack.dockerfiles.isEmpty) = false := by
    rw [hempty]
    rfl
  refine ⟨?_, rfl, by decide, ?_⟩
  · rw [build_pipeline_docker_jobs]
    rw [if_neg (by rw [hb]; exact Bool.false_ne_true), if_pos hflag]
  · rw [build_pipeline_warns_eq]
    apply List.mem_append_left
    apply List.mem_append_right
    rw [if_neg (by rw [hb]; exact Bool.false_ne_true), if_pos hflag]
    exact List.mem_singleton.mpr rfl

/-- C10 witness: the fallback clause applied at a stack with the flag set
and no artifacts. -/
theorem claim10_flag_artifact_divergence_witness :
    ({ has_dockerfile := true : StackInfo }.has_dockerfile = true
      ∧ { has_dockerfile := true : StackInfo }.dockerfiles = [])
    ∧ ((build_pipeline { has_dockerfile := true : StackInfo }).1.jobs.filter
          (fun j => j.stage == "docker") = [generic_docker_job]
      ∧ generic_docker_job.script.getD 1 ""
          = "docker build -t my-image:latest . || echo 'Настройте docker daemon / registry'"
      ∧ pyStarts (generic_docker_job.script.getD 1 "") "docker build -t my-image:latest ." = true
      ∧ docker_fallback_warn_text ∈ (build_pipeline { has_dockerfile := true : StackInfo }).2) :=
  ⟨⟨rfl, rfl⟩,
   (claim10_flag_artifact_divergence { has_dockerfile := true }).2.2 rfl rfl⟩

/-! ## Analyzer-side support lemmas -/

theorem iter_files_sub {files : List SrcFile} {f : SrcFile} (h : f ∈ iter_files files) :
    f ∈ files := (List.mem_filter.mp h).1

theorem akey_aset_or {α : Type} (m : List (String × α)) (k0 : String) (v : α) (k : String)
    (h : akey (aset m k0 v) k = true) : k = k0 ∨ akey m k = true := by
  by_cases he : k = k0
  · exact Or.inl he
  · right
    unfold akey at h ⊢
    rw [alookup_aset_ne m k0 v k he] at h
    exact h

theorem ext_lookup_mem (s lang : String) (h : alookup EXT_TO_LANGUAGE s = some lang) :
    lang ∈ tracked_languages := by
  simp only [EXT_TO_LANGUAGE] at h
  repeat' rw [alookup_cons] at h
  repeat' split at h
  all_goals simp_all [tracked_languages, alookup]

/-- Keys of the language-count dict are tracked language identifiers. -/
theorem counts_fold_keys (fs : List SrcFile) :
    ∀ (m : List (String × Nat)) (k : String),
      akey (fs.foldl (fun m f =>
          match alookup EXT_TO_LANGUAGE (pyLower (path_suffix (file_name f))) with
          | none => m
          | some lang => aset m lang ((alookup m lang).getD 0 + 1)) m) k = true →
      akey m k = true ∨ k ∈ tracked_languages := by
  induction fs with
  | nil => intro m k h; exact Or.inl h
  | cons f t ih =>
    intro m k h
    rw [List.foldl_cons] at h
    cases hl : alookup EXT_TO_LANGUAGE (pyLower (path_suffix (file_name f))) with
    | none =>
      rw [hl] at h
      exact ih _ _ h
    | some lang =>
      rw [hl] at h
      rcases ih _ _ h with h2 | h2
      · rcases akey_aset_or _ _ _ _ h2 with h3 | h3
        · exact Or.inr (h3 ▸ ext_lookup_mem _ _ hl)
        · exact Or.inl h3
      · exact Or.inr h2

theorem detect_language_counts_keys (files : List SrcFile) (k : String)
    (h : akey (detect_language_counts files) k = true) : k ∈ tracked_languages := by
  unfold detect_language_counts at h
  rcases counts_fold_keys _ _ _ h with h2 | h2
  · simp [akey, alookup] at h2
  · exact h2

theorem not_manifest_beq {nm : String} (h : nm ∉ recognized_manifest_names)
    {x : String} (hx : x ∈ recognized_manifest_names) : (nm == x) = false :=
  beq_eq_false_iff_ne.mpr (fun he => h (he ▸ hx))

/-- With no recognized manifest name in the tree, every manifest bucket is
empty. -/
theorem groups_empty (files : List SrcFile)
    (H1 : ∀ f ∈ files, pyLower (file_name f) ∉ recognized_manifest_names) :
    (group_project_files files).requirements = []
    ∧ (group_project_files files).pyproject = []
    ∧ (group_project_files files).pipfile = []
    ∧ (group_project_files files).package_json = []
    ∧ (group_project_files files).pom = []
    ∧ (group_project_files files).gradle = []
    ∧ (group_project_files files).go_mod = []
    ∧ (group_project_files files).tsconfig = [] := by
  have key : ∀ f ∈ iter_files files, pyLower (file_name f) ∉ recognized_manifest_names :=
    fun f hf => H1 f (iter_files_sub hf)
  refine ⟨?_, ?_, ?_, ?_, ?_, ?_, ?_, ?_⟩
  · show (iter_files files).filter (fun f => pyLower (file_name f) == "requirements.txt") = []
    rw [List.filter_eq_nil_iff]
    intro f hf
    rw [not_manifest_beq (key f hf) (by decide)]
    exact Bool.false_ne_true
  · show (iter_files files).filter (fun f => pyLower (file_name f) == "pyproject.toml") = []
    rw [List.filter_eq_nil_iff]
    intro f hf
    rw [not_manifest_beq (key f hf) (by decide)]
    exact Bool.false_ne_true
  · show (iter_files files).filter (fun f => pyLower (file_name f) == "pipfile") = []
    rw [List.filter_eq_nil_iff]
    intro f hf
    rw [not_manifest_beq (key f hf) (by decide)]
    exact Bool.false_ne_true
  · show (iter_files files).filter (fun f => pyLower (file_name f) == "package.json") = []
    rw [List.filter_eq_nil_iff]
    intro f hf
    rw [not_manifest_beq (key f hf) (by decide)]
    exact Bool.false_ne_true
  · show (iter_files files).filter (fun f => pyLower (file_name f) == "pom.xml") = []
    rw [List.filter_eq_nil_iff]
    intro f hf
    rw [not_manifest_beq (key f hf) (by decide)]
    exact Bool.false_ne_true
  · show (iter_files files).filter (fun f =>
        pyLower (file_name f) == "build.gradle" || pyLower (file_name f) == "build.gradle.kts") = []
    rw [List.filter_eq_nil_iff]
    intro f hf
    rw [not_manifest_beq (key f hf) (show "build.gradle" ∈ recognized_manifest_names by decide),
      not_manifest_beq (key f hf) (show "build.gradle.kts" ∈ recognized_manifest_names by decide)]
    exact Bool.false_ne_true
  · show (iter_files files).filter (fun f => pyLower (file_name f) == "go.mod") = []
    rw [List.filter_eq_nil_iff]
    intro f hf
    rw [not_manifest_beq (key f hf) (by decide)]
    exact Bool.false_ne_true
  · show (iter_files files).filter (fun f => pyLower (file_name f) == "tsconfig.json") = []
    rw [List.filter_eq_nil_iff]
    intro f hf
    rw [not_manifest_beq (key f hf) (by decide)]
    exact Bool.false_ne_true

/-- With empty manifest buckets no package manager is detected. -/
theorem detect_pms_empty (files : List SrcFile)
    (H1 : ∀ f ∈ files, pyLower (file_name f) ∉ recognized_manifest_names) :
    detect_package_managers files = [] := by
  obtain ⟨h1, h2, h3, h4, h5, h6, h7, _⟩ := groups_empty files H1
  unfold detect_package_managers
  dsimp only
  rw [h1, h2, h3, h4, h5, h6, h7]
  rfl

/-- With empty manifest buckets no framework is detected. -/
theorem detect_frameworks_empty (files : List SrcFile)
    (H1 : ∀ f ∈ files, pyLower (file_name f) ∉ recognized_manifest_names) :
    detect_frameworks files = [] := by
  obtain ⟨h1, h2, _, h4, h5, h6, _, _⟩ := groups_empty files H1
  unfold detect_frameworks
  dsimp only
  rw [h1, h2, h4, h5, h6]
  rfl

theorem collect_python_no_reqs (files : List SrcFile)
    (hreq : (group_project_files files).requirements = []) :
    (collect_python files).dependencies = [] ∧ (collect_python files).framework_versions = [] := by
  unfold collect_python
  dsimp only
  rw [hreq]
  exact ⟨rfl, rfl⟩

theorem collect_node_no_pkg (files : List SrcFile)
    (hpkg : (group_project_files files).package_json = []) :
    (collect_node files).dependencies = []
    ∧ (collect_node files).language_versions = []
    ∧ (collect_node files).framework_versions = [] := by
  unfold collect_node
  dsimp only
  rw [hpkg]
  exact ⟨rfl, rfl, rfl⟩

theorem collect_go_no_mod (files : List SrcFile)
    (hgo : (group_project_files files).go_mod = []) :
    collect_go files = {} := by
  unfold collect_go
  dsimp only
  rw [hgo]
  rfl

theorem collect_java_no_builds (files : List SrcFile)
    (hpom : (group_project_files files).pom = [])
    (hgr : (group_project_files files).gradle = []) :
    collect_java_kotlin files = {} := by
  unfold collect_java_kotlin
  dsimp only
  rw [hpom, hgr]
  rfl

/-- A merge step over a collector with empty framework versions keeps the
accumulated framework versions. -/
theorem merge_step_fw (a o : CollectorOut) (h : o.framework_versions = []) :
    (merge_step a o).framework_versions = a.framework_versions := by
  show o.framework_versions.foldl (fun m q => ainsertNew m q.1 q.2) a.framework_versions
    = a.framework_versions
  rw [h, List.foldl_nil]

/-- With no manifests at all the merged framework versions are empty. -/
theorem dv_fw_empty (files : List SrcFile)
    (H1 : ∀ f ∈ files, pyLower (file_name f) ∉ recognized_manifest_names) :
    (detect_dependencies_and_versions files).framework_versions = [] := by
  obtain ⟨h1, _, _, h4, h5, h6, h7, _⟩ := groups_empty files H1
  have hp := (collect_python_no_reqs files h1).2
  have hn := (collect_node_no_pkg files h4).2.2
  have hg : (collect_go files).framework_versions = [] := by rw [collect_go_no_mod files h7]
  have hj : (collect_java_kotlin files).framework_versions = [] := by
    rw [collect_java_no_builds files h5 h6]
  show (merge_step (merge_step (merge_step (merge_step {} (collect_python files))
      (collect_node files)) (collect_go files)) (collect_java_kotlin files)).framework_versions = []
  rw [merge_step_fw _ _ hj, merge_step_fw _ _ hg, merge_step_fw _ _ hn, merge_step_fw _ _ hp]

/-- The docker-flag fold never sets the first component when no file
matches the lowercase dockerfile test. -/
theorem deploy_fold_first (fs : List SrcFile) :
    ∀ acc : Bool × Bool × Bool,
      (∀ f ∈ fs, (pyLower (file_name f) == "dockerfile") = false
        ∧ pyStarts (pyLower (file_name f)) "dockerfile." = false) →
      ((fs.foldl (fun (acc : Bool × Bool × Bool) f =>
          let nm := pyLower (file_name f)
          ( acc.1 || (nm == "dockerfile" || pyStarts nm "dockerfile."),
            acc.2.1 || (nm == "docker-compose.yml" || nm == "docker-compose.yaml"),
            acc.2.2 || ((pyEnds nm ".yml" || pyEnds nm ".yaml")
              && f.parts.any (fun part => part == "k8s" || part == "kubernetes" || part == "manifests")) ))
        acc).1) = acc.1 := by
  induction fs with
  | nil => intro acc _; rfl
  | cons f t ih =>
    intro acc h
    rw [List.foldl_cons]
    rw [ih _ (fun g hg => h g (List.mem_cons_of_mem _ hg))]
    have h1 := (h f (List.mem_cons_self _ _)).1
    have h2 := (h f (List.mem_cons_self _ _)).2
    dsimp only
    rw [h1, h2]
    cases acc.1 <;> rfl

/-- With no dockerfile-named file (lowercase test) the flag is false. -/
theorem has_dockerfile_false (files : List SrcFile)
    (H3 : ∀ f ∈ files, (pyLower (file_name f) == "dockerfile") = false
      ∧ pyStarts (pyLower (file_name f)) "dockerfile." = false) :
    (detect_deploy_artifacts files).1 = false := by
  unfold detect_deploy_artifacts
  exact deploy_fold_first (iter_files files) (false, false, false)
    (fun f hf => H3 f (iter_files_sub hf))

/-- With no `Dockerfile*`-named file no artifact is discovered. -/
theorem detect_dockerfiles_empty (files : List SrcFile)
    (H2 : ∀ f ∈ files, pyStarts (file_name f) "Dockerfile" = false) :
    detect_dockerfiles files = [] := by
  unfold detect_dockerfiles
  have : files.filter (fun f =>
      pyStarts (file_name f) "Dockerfile" && !(f.parts.contains ".git")) = [] := by
    rw [List.filter_eq_nil_iff]
    intro f hf
    rw [H2 f hf]
    exact Bool.false_ne_true
  rw [this]
  rfl

/-- Under the no-signal hypotheses every detected language is dropped by
the noise filter, so no language survives. -/
theorem filtered_languages_empty (files : List SrcFile)
    (H1 : ∀ f ∈ files, pyLower (file_name f) ∉ recognized_manifest_names)
    (H4 : ∀ lang, (alookup (detect_language_counts files) lang).getD 0 ≤ 1) :
    (pySortStr ((detect_language_counts files).map Prod.fst)).filter
      (fun lang => !(lang_dropped (detect_language_counts files)
        (detect_package_managers files) lang)) = [] := by
  rw [List.filter_eq_nil_iff]
  intro lang hmem
  have hkey : akey (detect_language_counts files) lang = true :=
    (akey_iff_mem_map_fst _ _).mpr ((mem_pySortStr _ _).mp hmem)
  have htracked := detect_language_counts_keys files lang hkey
  have hdrop : lang_dropped (detect_language_counts files) (detect_package_managers files) lang
      = true := by
    have hfam : ∃ fam, alookup ECO_PMS lang = some fam := by
      fin_cases htracked
      · exact ⟨["pip", "poetry", "pipenv"], by decide⟩
      · exact ⟨["npm", "yarn", "pnpm"], by decide⟩
      · exact ⟨["maven", "gradle"], by decide⟩
      · exact ⟨["go-mod"], by decide⟩
    obtain ⟨fam, hfam⟩ := hfam
    unfold lang_dropped
    rw [hfam, detect_pms_empty files H1]
    rw [decide_eq_true (H4 lang)]
    rfl
  rw [hdrop]
  decide

/-- A stack with no languages, no frameworks, no docker signals builds the
deploy-only pipeline with the placeholders warning. -/
theorem build_pipeline_default (stack : StackInfo)
    (hlang : stack.languages = []) (hfwk : stack.frameworks = [])
    (hhd : stack.has_dockerfile = false) (hdf : stack.dockerfiles = []) :
    (build_pipeline stack).1 = ⟨["deploy"], [deploy_job]⟩
    ∧ (build_pipeline stack).2 = [placeholder_warn_text] := by
  have hp : stack.languages.contains "python" = false := by rw [hlang]; rfl
  have hg : stack.languages.contains "go" = false := by rw [hlang]; rfl
  have hj : stack.languages.contains "java" = false := by rw [hlang]; rfl
  have hn : has_node_stack stack = false := by
    unfold has_node_stack
    rw [hlang, hfwk]
    rfl
  have hqj : quality_has_java stack = false := by
    unfold quality_has_java
    rw [hj]
    rfl
  have hq : quality_jobs stack = [] := by
    unfold quality_jobs
    rw [hqj, hn]
    rfl
  have hqw : quality_warns stack = [] := by
    unfold quality_warns
    rw [hqj, hn]
    rfl
  have hbe : (!stack.dockerfiles.isEmpty) = false := by rw [hdf]; rfl
  have hjobs : (build_pipeline stack).1.jobs = [deploy_job] := by
    rw [build_pipeline_jobs_eq]
    rw [hp, hn, hg, hj, hq, hbe, hhd]
    simp only [Bool.false_and]
    rfl
  have hstages : (build_pipeline stack).1.stages = ["deploy"] := by
    show canonicalize_stages (registered_stages stack) = ["deploy"]
    unfold registered_stages
    rw [hp, hn, hg, hj, hqj, hbe, hhd]
    simp only [Bool.false_and, Bool.false_or]
    decide
  have hwarns : (build_pipeline stack).2 = [placeholder_warn_text] := by
    rw [build_pipeline_warns_eq]
    rw [hqw, hp, hn, hg, hj, hbe, hhd]
    simp only [Bool.false_and, Bool.false_or]
    rfl
  refine ⟨?_, hwarns⟩
  have : (build_pipeline stack).1 =
      { stages := (build_pipeline stack).1.stages, jobs := (build_pipeline stack).1.jobs } := rfl
  rw [this, hstages, hjobs]

/-! ## C7 — noise filtering -/

/-- C7: a detected language with a known package-manager family whose file
count is at most 1 and whose family has no detected package manager is
removed from the exposed languages, and a warning mentioning the language
is emitted. -/
theorem claim7_noise_filter (files : List SrcFile) (lang : String) (fam : List String)
    (hfam : alookup ECO_PMS lang = some fam)
    (hdet : akey (detect_language_counts files) lang = true)
    (hcount : (alookup (detect_language_counts files) lang).getD 0 ≤ 1)
    (hpm : ∀ pm ∈ detect_package_managers files, pm ∉ fam) :
    lang ∉ (analyze_files files).1.languages
    ∧ noise_warn_text lang ∈ (analyze_files files).2
    ∧ ∃ a b : List Char, (noise_warn_text lang).data = a ++ lang.data ++ b := by
  have hany : (detect_package_managers files).any (fun pm => fam.contains pm) = false := by
    rw [List.any_eq_false]
    intro pm hm
    cases hx : fam.contains pm with
    | false => exact Bool.false_ne_true
    | true => exact absurd (List.elem_iff.mp hx) (hpm pm hm)
  have hdrop : lang_dropped (detect_language_counts files) (detect_package_managers files) lang
      = true := by
    unfold lang_dropped
    rw [hfam]
    show (decide ((alookup (detect_language_counts files) lang).getD 0 ≤ 1)
      && !(detect_package_managers files).any fun pm => fam.contains pm) = true
    rw [hany, decide_eq_true hcount]
    rfl
  refine ⟨?_, ?_, ?_⟩
  · intro hmem
    have h2 : lang ∈ (pySortStr ((detect_language_counts files).map Prod.fst)).filter
        (fun l => !(lang_dropped (detect_language_counts files)
          (detect_package_managers files) l)) :=
      (mem_pySortStr _ _).mp hmem
    have h3 := (List.mem_filter.mp h2).2
    rw [hdrop] at h3
    simp at h3
  · apply List.mem_append_left
    apply List.mem_map.mpr
    refine ⟨lang, ?_, rfl⟩
    apply List.mem_filter.mpr
    refine ⟨(mem_pySortStr _ _).mpr ((akey_iff_mem_map_fst _ _).mp hdet), hdrop⟩
  · exact ⟨"Обнаружен единичный файл языка ".data,
      " без конфигурации зависимостей — считаем его вспомогательным и не включаем в основной стек.".data,
      rfl⟩

/-- C7 witness: a tree with exactly one `.go` file and no `go.mod` drops
`go` and warns about it. -/
theorem claim7_noise_filter_witness :
    (alookup ECO_PMS "go" = some ["go-mod"]
      ∧ akey (detect_language_counts tree_one_go) "go" = true
      ∧ (alookup (detect_language_counts tree_one_go) "go").getD 0 ≤ 1
      ∧ detect_package_managers tree_one_go = [])
    ∧ ("go" ∉ (analyze_files tree_one_go).1.languages
      ∧ noise_warn_text "go" ∈ (analyze_files tree_one_go).2
      ∧ ∃ a b : List Char, (noise_warn_text "go").data = a ++ "go".data ++ b) :=
  ⟨⟨by decide, by decide, by decide, by decide⟩,
   claim7_noise_filter tree_one_go "go" ["go-mod"] (by decide) (by decide) (by decide)
     (by decide)⟩

/-! ## C4 — placeholder pipeline for signal-free trees -/

/-- C4 counterexample: a tree with two `.py` files contains no recognized
manifests, yet the synthesized pipeline has lint and test stages and python
jobs, not only deploy. -/
theorem claim4_placeholder_counterexample :
    (∀ f ∈ tree_two_py, pyLower (file_name f) ∉ recognized_manifest_names)
    ∧ (build_pipeline (analyze_files tree_two_py).1).1.stages ≠ ["deploy"]
    ∧ (build_pipeline (analyze_files tree_two_py).1).1.jobs ≠ [deploy_job] := by
  refine ⟨by decide, by decide, by decide⟩

/-- C4 (amended): a tree with no recognized manifests, no Dockerfile-like
files, and at most one source file per tracked language synthesizes the
deploy-only pipeline with the single placeholder job and the
no-ecosystem warning; and for every input the deploy stage is present and
carries exactly the one placeholder job. -/
theorem claim4_placeholder_pipeline (files : List SrcFile)
    (H1 : ∀ f ∈ files, pyLower (file_name f) ∉ recognized_manifest_names)
    (H2 : ∀ f ∈ files, pyStarts (file_name f) "Dockerfile" = false)
    (H3 : ∀ f ∈ files, (pyLower (file_name f) == "dockerfile") = false
      ∧ pyStarts (pyLower (file_name f)) "dockerfile." = false)
    (H4 : ∀ lang, (alookup (detect_language_counts files) lang).getD 0 ≤ 1) :
    ((build_pipeline (analyze_files files).1).1 = ⟨["deploy"], [deploy_job]⟩
      ∧ placeholder_warn_text ∈ (build_pipeline (analyze_files files).1).2)
    ∧ (∀ stack : StackInfo, "deploy" ∈ (build_pipeline stack).1.stages
        ∧ (build_pipeline stack).1.jobs.filter (fun j => j.stage == "deploy") = [deploy_job]) := by
  constructor
  · have hlang : (analyze_files files).1.languages = [] := by
      show pySortStr ((pySortStr ((detect_language_counts files).map Prod.fst)).filter
        (fun lang => !(lang_dropped (detect_language_counts files)
          (detect_package_managers files) lang))) = []
      rw [filtered_languages_empty files H1 H4]
      rfl
    have hfwk : (analyze_files files).1.frameworks = [] := by
      show pySortStr (pyDedup (detect_frameworks files
        ++ (detect_dependencies_and_versions files).framework_versions.map Prod.fst)) = []
      rw [detect_frameworks_empty files H1, dv_fw_empty files H1]
      rfl
    have hhd : (analyze_files files).1.has_dockerfile = false := by
      show (detect_deploy_artifacts files).1 = false
      exact has_dockerfile_false files H3
    have hdf : (analyze_files files).1.dockerfiles = [] := by
      show detect_dockerfiles files = []
      exact detect_dockerfiles_empty files H2
    obtain ⟨hpipe, hwarns⟩ := build_pipeline_default _ hlang hfwk hhd hdf
    refine ⟨hpipe, ?_⟩
    rw [hwarns]
    exact List.mem_singleton.mpr rfl
  · intro stack
    refine ⟨?_, build_pipeline_deploy_jobs stack⟩
    have hstages : (build_pipeline stack).1.stages =
        canonicalize_stages (registered_stages stack) := rfl
    rw [hstages, mem_canonicalize_stages]
    unfold registered_stages
    exact (raw_stages_mem _ _ _ _ _ _).1

/-- C4 witness: the one-file go tree satisfies the no-signal hypotheses and
gets the deploy-only pipeline. -/
theorem claim4_placeholder_pipeline_witness :
    ((∀ f ∈ tree_one_go, pyLower (file_name f) ∉ recognized_manifest_names)
      ∧ (∀ f ∈ tree_one_go, pyStarts (file_name f) "Dockerfile" = false)
      ∧ (∀ f ∈ tree_one_go, (pyLower (file_name f) == "dockerfile") = false
          ∧ pyStarts (pyLower (file_name f)) "dockerfile." = false)
      ∧ (∀ lang, (alookup (detect_language_counts tree_one_go) lang).getD 0 ≤ 1))
    ∧ ((build_pipeline (analyze_files tree_one_go).1).1 = ⟨["deploy"], [deploy_job]⟩
      ∧ placeholder_warn_text ∈ (build_pipeline (analyze_files tree_one_go).1).2) := by
  have H4 : ∀ lang, (alookup (detect_language_counts tree_one_go) lang).getD 0 ≤ 1 := by
    intro lang
    have hdl : detect_language_counts tree_one_go = [(("go" : String), (1 : Nat))] := by decide
    rw [hdl, alookup_cons]
    by_cases h : ("go" == lang)
    · rw [if_pos h]
      decide
    · rw [if_neg h, alookup_nil]
      decide
  exact ⟨⟨by decide, by decide, by decide, H4⟩,
    (claim4_placeholder_pipeline tree_one_go (by decide) (by decide) (by decide) H4).1⟩
